import Mathlib

/-!
# Device power-status announcements (`src/main.cpp`)

A shallow embedding of the device classes of `src/main.cpp` and of the
single-precision arithmetic their battery text depends on.

* `F32` is an IEEE 754 binary32 datum given by its sign, exponent and fraction
  fields.  `F32.add` and `F32.mul` round to nearest, ties to even, and are
  evaluated in single precision; `F32.roundf` is `std::round` on `float`;
  `F32.toInt` is the conversion `(int) x` to a 32-bit `int`.
* C++ leaves `(int) x` undefined when `x` is infinite, NaN or out of the range
  of `int`.  The value an implementation then produces is a parameter of the
  model, `IntConv`; `x86` is the instance of the x86 conversion instruction.
* `Device`, `BatteryDevice`, `EchoSub`, `FireTV`, `Kindle` carry the data
  members of the classes of the same name.  A member function that writes to
  `cout` takes the text written so far and returns the object together with
  the extended text.
-/

/-! ## Single-precision arithmetic -/

/-- Halving loop behind `bitLen`; `fuel` bounds the number of halvings. -/
def bitLenAux : Nat → Nat → Nat
  | 0, _ => 0
  | fuel + 1, n => if n = 0 then 0 else bitLenAux fuel (n / 2) + 1

/-- Number of binary digits of `n` (`0` for `n = 0`). -/
def bitLen (n : Nat) : Nat := bitLenAux n n

/-- An IEEE 754 binary32 datum: sign bit, 8-bit biased exponent, 23-bit fraction. -/
structure F32 where
  sign : Bool
  exp : Fin 256
  man : Fin 8388608
deriving DecidableEq

namespace F32

/-- Zero of the given sign. -/
def zero (s : Bool) : F32 := ⟨s, 0, 0⟩

/-- Infinity of the given sign. -/
def inf (s : Bool) : F32 := ⟨s, 255, 0⟩

/-- The quiet not-a-number an invalid operation produces. -/
def nan : F32 := ⟨false, 255, 4194304⟩

def isNaN (x : F32) : Bool := x.exp.val == 255 && x.man.val != 0

def isInf (x : F32) : Bool := x.exp.val == 255 && x.man.val == 0

/-- Integer significand: the fraction field, with the hidden bit for a normal number. -/
def sig (x : F32) : Nat := if x.exp.val = 0 then x.man.val else 8388608 + x.man.val

/-- Binary exponent of the last place of the significand, counted from `-149`. -/
def sexp (x : F32) : Nat := if x.exp.val = 0 then 0 else x.exp.val - 1

/-- Magnitude of a finite datum in units of `2^-149`. -/
def units (x : F32) : Nat := x.sig * 2 ^ x.sexp

/-- Value of a finite datum as a rational number (`0` is returned for infinities and NaN,
which have no value). -/
def toRat (x : F32) : ℚ :=
  if x.exp.val = 255 then 0
  else (if x.sign then -1 else 1) * ((x.units : ℚ) / 2 ^ 149)

/-- Floor of the binary logarithm of `num / den`, for positive `num` and `den`. -/
def floorLog2 (num den : Nat) : Int :=
  let d : Int := (bitLen num : Int) - (bitLen den : Int)
  if den * 2 ^ d.toNat ≤ num * 2 ^ (-d).toNat then d else d - 1

/-- The datum of sign `s` and magnitude `m * 2^qe`, for a significand `m < 2^24` that is at
least `2^23` unless `qe = -149`; an infinity when the exponent is beyond the largest one. -/
def pack (s : Bool) (m : Nat) (qe : Int) : F32 :=
  if h : m < 8388608 then ⟨s, 0, ⟨m, h⟩⟩ else
  if h2 : (qe + 150).toNat < 255 ∧ m - 8388608 < 8388608 then
    ⟨s, ⟨(qe + 150).toNat, by omega⟩, ⟨m - 8388608, h2.2⟩⟩
  else inf s

/-- The binary32 datum nearest to `± num / den`, ties to the even significand; overflow gives
an infinity and underflow is gradual. -/
def roundNE (s : Bool) (num den : Nat) : F32 :=
  if num = 0 then zero s else
  let e := floorLog2 num den
  let qe : Int := max (e - 23) (-149)
  let a := num * 2 ^ (-qe).toNat
  let b := den * 2 ^ qe.toNat
  let q := a / b
  let r := a % b
  let m := if 2 * r < b then q else if b < 2 * r then q + 1 else if q % 2 = 0 then q else q + 1
  if m = 16777216 then pack s 8388608 (qe + 1) else pack s m qe

/-- Sum `x + y` of two floats. -/
def add (x y : F32) : F32 :=
  if x.isNaN || y.isNaN then nan
  else if x.isInf then (if y.isInf && (x.sign != y.sign) then nan else x)
  else if y.isInf then y
  else
    let sx : Int := if x.sign then -(x.units : Int) else x.units
    let sy : Int := if y.sign then -(y.units : Int) else y.units
    let t := sx + sy
    if t = 0 then zero (x.sign && y.sign)
    else roundNE (decide (t < 0)) t.natAbs (2 ^ 149)

/-- Product `x * y` of two floats. -/
def mul (x y : F32) : F32 :=
  if x.isNaN || y.isNaN then nan
  else if x.isInf then (if y.units = 0 then nan else inf (x.sign != y.sign))
  else if y.isInf then (if x.units = 0 then nan else inf (x.sign != y.sign))
  else roundNE (x.sign != y.sign) (x.units * y.units) (2 ^ 149 * 2 ^ 149)

/-- Unary minus. -/
def neg (x : F32) : F32 := { x with sign := !x.sign }

/-- Conversion of an `int` to `float`, as applied to the operand `100` of `charge * 100`. -/
def ofInt (n : Int) : F32 := roundNE (decide (n < 0)) n.natAbs 1

/-- The float denoted by a decimal literal of value `num / den`, such as `1.0f` or `.01f`. -/
def lit (num den : Nat) : F32 := roundNE false num den

/-- The function `std::round` on `float`: the nearest integral value, halfway cases away from
zero.  A float of magnitude at least `2^23`, an infinity and a NaN are returned as they are. -/
def roundf (x : F32) : F32 :=
  if 150 ≤ x.exp.val then x
  else
    let k := 149 - x.sexp
    roundNE x.sign ((x.sig + 2 ^ (k - 1)) / 2 ^ k) 1

/-- Value of a finite datum in units of `2^-149`, with its sign. -/
def signedUnits (x : F32) : Int := if x.sign then -(x.units : Int) else x.units

/-- The magnitude `n * 2^-149` is that of a finite float: `n` has at most 24 significant
binary digits and is below `2^277`. -/
def Representable (n : Nat) : Prop :=
  n < 16777216 ∨ (bitLen n ≤ 277 ∧ n % 2 ^ (bitLen n - 24) = 0)

instance (n : Nat) : Decidable (Representable n) := by
  unfold Representable; infer_instance

end F32

/-- Least value of a 32-bit `int`. -/
def INT_MIN : Int := -2147483648

/-- Greatest value of a 32-bit `int`. -/
def INT_MAX : Int := 2147483647

/-- What the conversion `(int) x` yields where C++ leaves it undefined, that is when `x` is
infinite, NaN, or its truncation is outside the range of `int`: some `int` chosen by the
implementation. -/
structure IntConv where
  invalid : F32 → Int
  invalid_ge : ∀ x, INT_MIN ≤ invalid x
  invalid_le : ∀ x, invalid x ≤ INT_MAX

/-- The conversion of the x86 instruction `cvttss2si`: every invalid operand gives `INT_MIN`. -/
def x86 : IntConv :=
  ⟨fun _ => INT_MIN, fun _ => Int.le_refl _, fun _ => (by decide : INT_MIN ≤ INT_MAX)⟩

namespace F32

/-- Truncation toward zero of a finite datum. -/
def trunc (x : F32) : Int :=
  let t : Int := ((x.units / 2 ^ 149 : Nat) : Int)
  if x.sign then -t else t

/-- The conversion `(int) x` is defined: `x` is finite and its truncation is an `int`. -/
def IntDefined (x : F32) : Prop :=
  x.exp.val ≠ 255 ∧ INT_MIN ≤ x.trunc ∧ x.trunc ≤ INT_MAX

instance (x : F32) : Decidable (IntDefined x) := by
  unfold IntDefined; infer_instance

/-- The conversion `(int) x`: truncation toward zero. -/
def toInt (cv : IntConv) (x : F32) : Int :=
  if IntDefined x then x.trunc else cv.invalid x

end F32

/-- The function `std::to_string` on `int`: decimal digits, with a minus sign when negative. -/
def to_string (n : Int) : String :=
  if n < 0 then "-" ++ Nat.repr n.natAbs else Nat.repr n.natAbs

/-- Rounding of a rational number to the nearest integer, halves away from zero. -/
def roundHalfAway (q : ℚ) : Int :=
  if 0 ≤ q then ⌊q + 1 / 2⌋ else -⌊-q + 1 / 2⌋

/-- The string `s` begins with `pre`. -/
def StartsWith (s pre : String) : Prop := pre.data <+: s.data

/-- The string `s` ends with `post`. -/
def EndsWith (s post : String) : Prop := post.data <:+ s.data

instance (s pre : String) : Decidable (StartsWith s pre) := by
  unfold StartsWith; infer_instance

instance (s post : String) : Decidable (EndsWith s post) := by
  unfold EndsWith; infer_instance

/-- The text of the given lines, each ended by a line break. -/
def emitLines (ls : List String) : String := String.join (ls.map fun l => l ++ "\n")

/-- The status text of a battery variant in the words of the specification: the base
`battery life at p%`, with `device off, ` in front when not powered and `, and charging`
behind when charging. -/
def specStatusText (powered charging : Bool) (p : Int) : String :=
  (if powered then "" else "device off, ") ++ ("battery life at " ++ to_string p ++ "%")
    ++ (if charging then ", and charging" else "")

/-- The percentage of the specification: `charge * 100`, the product being the
single-precision one, rounded to the nearest integer with halves away from zero. -/
def specPercent (charge : F32) : Int :=
  roundHalfAway (F32.mul charge (F32.ofInt 100)).toRat

/-! ## The device classes -/

/-- The class `Device`. -/
structure Device where
  power : Bool
deriving DecidableEq

namespace Device

/-- The constructor `Device() : power(false)`. -/
def new : Device := { power := false }

def handlePowerOn (self : Device) : Device := { self with power := true }

def handlePowerOff (self : Device) : Device := { self with power := false }

def getPowerStatus (self : Device) : String :=
  "device " ++ (if self.power then "on" else "off")

end Device

/-- The class `BatteryDevice`, with its virtual base `Device`. -/
structure BatteryDevice extends Device where
  charging : Bool
  charge : F32
deriving DecidableEq

namespace BatteryDevice

/-- The constructor `BatteryDevice() : charging(false), charge(1.0f)`. -/
def new : BatteryDevice := { toDevice := Device.new, charging := false, charge := F32.lit 1 1 }

def handlePowerOn (self : BatteryDevice) : BatteryDevice :=
  { self with toDevice := self.toDevice.handlePowerOn }

def handlePowerOff (self : BatteryDevice) : BatteryDevice :=
  { self with toDevice := self.toDevice.handlePowerOff }

def handleUnplug (self : BatteryDevice) : BatteryDevice := { self with charging := false }

def handlePlug (self : BatteryDevice) : BatteryDevice := { self with charging := true }

def handleUpdateCharge (self : BatteryDevice) (increase : F32) : BatteryDevice :=
  { self with charge := F32.add self.charge increase }

def getPowerStatus (cv : IntConv) (self : BatteryDevice) : String :=
  let status := "battery life at "
    ++ to_string (F32.toInt cv (F32.roundf (F32.mul self.charge (F32.ofInt 100)))) ++ "%"
  let status := if !self.power then "device off, " ++ status else status
  let status := if self.charging then status ++ ", and charging" else status
  status

/-- The `int` that `getPowerStatus` hands to `to_string`: `(int) round(charge * 100)`. -/
def percent (cv : IntConv) (self : BatteryDevice) : Int :=
  F32.toInt cv (F32.roundf (F32.mul self.charge (F32.ofInt 100)))

end BatteryDevice

/-- The class `EchoSub`: an `AudioDevice` over the virtual base `Device`. -/
structure EchoSub extends Device
deriving DecidableEq

namespace EchoSub

/-- The implicit default constructor: `power` is false. -/
def new : EchoSub := { toDevice := Device.new }

def handlePowerOn (self : EchoSub) : EchoSub :=
  { self with toDevice := self.toDevice.handlePowerOn }

def handlePowerOff (self : EchoSub) : EchoSub :=
  { self with toDevice := self.toDevice.handlePowerOff }

/-- The final overrider of `getPowerStatus` in `EchoSub` is `Device::getPowerStatus`. -/
def getPowerStatus (self : EchoSub) : String := self.toDevice.getPowerStatus

def vocalizePowerStatus (self : EchoSub) (cout : String) : EchoSub × String :=
  (self, cout ++ "EchoSub vocalizing: " ++ self.getPowerStatus ++ "\n")

def announcePowerStatus (self : EchoSub) (cout : String) : EchoSub × String :=
  let (self, cout) := self.vocalizePowerStatus cout
  (self, cout ++ "\n")

end EchoSub

/-- The class `FireTV`: an `AudioDevice` and a `VideoDevice` over the virtual base `Device`. -/
structure FireTV extends Device
deriving DecidableEq

namespace FireTV

/-- The implicit default constructor: `power` is false. -/
def new : FireTV := { toDevice := Device.new }

def handlePowerOn (self : FireTV) : FireTV :=
  { self with toDevice := self.toDevice.handlePowerOn }

def handlePowerOff (self : FireTV) : FireTV :=
  { self with toDevice := self.toDevice.handlePowerOff }

/-- The final overrider of `getPowerStatus` in `FireTV` is `Device::getPowerStatus`. -/
def getPowerStatus (self : FireTV) : String := self.toDevice.getPowerStatus

def vocalizePowerStatus (self : FireTV) (cout : String) : FireTV × String :=
  (self, cout ++ "FireTV vocalizing: " ++ self.getPowerStatus ++ "\n")

def renderPowerStatus (self : FireTV) (cout : String) : FireTV × String :=
  (self, cout ++ "FireTV rendering: " ++ self.getPowerStatus ++ "\n")

def announcePowerStatus (self : FireTV) (cout : String) : FireTV × String :=
  let (self, cout) := self.vocalizePowerStatus cout
  let (self, cout) := self.renderPowerStatus cout
  (self, cout ++ "\n")

end FireTV

/-- The class `Kindle`: a `BatteryDevice`, an `AudioDevice` and a `VideoDevice` sharing one
virtual base `Device`, hence one `power` member. -/
structure Kindle extends BatteryDevice
deriving DecidableEq

namespace Kindle

/-- The implicit default constructor: `power` and `charging` are false, `charge` is `1.0f`. -/
def new : Kindle := { toBatteryDevice := BatteryDevice.new }

def handlePowerOn (self : Kindle) : Kindle :=
  { self with toBatteryDevice := self.toBatteryDevice.handlePowerOn }

def handlePowerOff (self : Kindle) : Kindle :=
  { self with toBatteryDevice := self.toBatteryDevice.handlePowerOff }

def handleUnplug (self : Kindle) : Kindle :=
  { self with toBatteryDevice := self.toBatteryDevice.handleUnplug }

def handlePlug (self : Kindle) : Kindle :=
  { self with toBatteryDevice := self.toBatteryDevice.handlePlug }

def handleUpdateCharge (self : Kindle) (increase : F32) : Kindle :=
  { self with toBatteryDevice := self.toBatteryDevice.handleUpdateCharge increase }

def vocalizePowerStatus (cv : IntConv) (self : Kindle) (cout : String) : Kindle × String :=
  (self, cout ++ "Kindle vocalizing: " ++ self.toBatteryDevice.getPowerStatus cv ++ "\n")

def renderPowerStatus (cv : IntConv) (self : Kindle) (cout : String) : Kindle × String :=
  (self, cout ++ "Kindle rendering: " ++ self.toBatteryDevice.getPowerStatus cv ++ "\n")

def announcePowerStatus (cv : IntConv) (self : Kindle) (cout : String) : Kindle × String :=
  let (self, cout) := self.vocalizePowerStatus cv cout
  let (self, cout) := self.renderPowerStatus cv cout
  (self, cout ++ "\n")

end Kindle

/-- A call of one of the two power member functions. -/
inductive PowerCall where
  | handlePowerOn
  | handlePowerOff
deriving DecidableEq

/-- One power call on an `EchoSub`. -/
def EchoSub.call (self : EchoSub) : PowerCall → EchoSub
  | .handlePowerOn => self.handlePowerOn
  | .handlePowerOff => self.handlePowerOff

/-- One power call on a `FireTV`. -/
def FireTV.call (self : FireTV) : PowerCall → FireTV
  | .handlePowerOn => self.handlePowerOn
  | .handlePowerOff => self.handlePowerOff

/-! ## The demonstrations -/

def demoEchoSub (cout : String) : String :=
  let cout := cout ++ "--- Echo Dot ---" ++ "\n"
  let demo := EchoSub.new
  let cout := cout ++ "Echo Sub instantiated" ++ "\n"
  let (demo, cout) := demo.announcePowerStatus cout
  let demo := demo.handlePowerOn
  let cout := cout ++ "Echo Sub turned on" ++ "\n"
  let (demo, cout) := demo.announcePowerStatus cout
  let demo := demo.handlePowerOff
  let cout := cout ++ "Echo Sub turned off" ++ "\n"
  let (_, cout) := demo.announcePowerStatus cout
  cout

def demoFireTV (cout : String) : String :=
  let cout := cout ++ "--- Fire TV---" ++ "\n"
  let demo := FireTV.new
  let cout := cout ++ "Fire TV instantiated" ++ "\n"
  let (demo, cout) := demo.announcePowerStatus cout
  let demo := demo.handlePowerOn
  let cout := cout ++ "Fire TV turned on" ++ "\n"
  let (demo, cout) := demo.announcePowerStatus cout
  let demo := demo.handlePowerOff
  let cout := cout ++ "Fire TV turned off" ++ "\n"
  let (_, cout) := demo.announcePowerStatus cout
  cout

def demoKindle (cv : IntConv) (cout : String) : String :=
  let cout := cout ++ "--- Kindle ---" ++ "\n"
  let demo := Kindle.new
  let cout := cout ++ "Kindle instantiated" ++ "\n"
  let (demo, cout) := demo.announcePowerStatus cv cout
  let demo := demo.handlePlug
  let cout := cout ++ "Kindle plugged in" ++ "\n"
  let (demo, cout) := demo.announcePowerStatus cv cout
  let demo := demo.handleUnplug
  let cout := cout ++ "Kindle unplugged" ++ "\n"
  let (demo, cout) := demo.announcePowerStatus cv cout
  let demo := demo.handleUpdateCharge (F32.neg (F32.lit 1 100))
  let cout := cout ++ "Kindle lost some charge" ++ "\n"
  let (demo, cout) := demo.announcePowerStatus cv cout
  let demo := demo.handlePowerOn
  let cout := cout ++ "Kindle turned on" ++ "\n"
  let (demo, cout) := demo.announcePowerStatus cv cout
  let demo := demo.handlePlug
  let cout := cout ++ "Kindle plugged in" ++ "\n"
  let (_, cout) := demo.announcePowerStatus cv cout
  cout

/-! ## Call sequences on a Kindle -/

/-- A call of one of the five state-changing member functions of a `Kindle`. -/
inductive KindleCall where
  | handlePowerOn
  | handlePowerOff
  | handlePlug
  | handleUnplug
  | handleUpdateCharge (increase : F32)
deriving DecidableEq

/-- One call on a `Kindle`. -/
def Kindle.call (self : Kindle) : KindleCall → Kindle
  | .handlePowerOn => self.handlePowerOn
  | .handlePowerOff => self.handlePowerOff
  | .handlePlug => self.handlePlug
  | .handleUnplug => self.handleUnplug
  | .handleUpdateCharge increase => self.handleUpdateCharge increase

namespace KindleCall

/-- The power calls: `true` for `handlePowerOn`, `false` for `handlePowerOff`. -/
def powerFlag : KindleCall → Option Bool
  | .handlePowerOn => some true
  | .handlePowerOff => some false
  | _ => none

/-- The plug calls: `true` for `handlePlug`, `false` for `handleUnplug`. -/
def plugFlag : KindleCall → Option Bool
  | .handlePlug => some true
  | .handleUnplug => some false
  | _ => none

/-- The charge calls: the argument of `handleUpdateCharge`. -/
def delta : KindleCall → Option F32
  | .handleUpdateCharge increase => some increase
  | _ => none

end KindleCall

/-! ## Decimal digits, for the proofs -/

/-- Value of a decimal digit character. -/
def digitVal (c : Char) : Nat := c.toNat - 48

/-- Value of a list of decimal digit characters, most significant first, continuing from `a`. -/
def decVal (a : Nat) (l : List Char) : Nat := l.foldl (fun acc c => 10 * acc + digitVal c) a

/-! ## Lemmas on the arithmetic -/

theorem bitLenAux_zero (fuel : Nat) : bitLenAux fuel 0 = 0 := by
  cases fuel <;> simp [bitLenAux]

theorem bitLenAux_bounds (fuel : Nat) :
    ∀ n, n ≤ fuel → n < 2 ^ bitLenAux fuel n ∧ (0 < n → 2 ^ bitLenAux fuel n ≤ 2 * n) := by
  induction fuel with
  | zero =>
    intro n hn
    have : n = 0 := by omega
    subst this
    simp [bitLenAux]
  | succ f ih =>
    intro n hn
    by_cases h0 : n = 0
    · subst h0
      simp [bitLenAux]
    · have hdiv : n / 2 ≤ f := by omega
      obtain ⟨h1, h2⟩ := ih (n / 2) hdiv
      have hstep : bitLenAux (f + 1) n = bitLenAux f (n / 2) + 1 := by
        simp [bitLenAux, h0]
      rw [hstep, pow_succ]
      refine ⟨by omega, fun _ => ?_⟩
      by_cases hz : n / 2 = 0
      · have h1n : n = 1 := by omega
        subst h1n
        simp [bitLenAux_zero]
      · have := h2 (by omega)
        omega

theorem lt_two_pow_bitLen (n : Nat) : n < 2 ^ bitLen n :=
  (bitLenAux_bounds n n (Nat.le_refl n)).1

theorem two_pow_bitLen_le (n : Nat) (h : 0 < n) : 2 ^ bitLen n ≤ 2 * n :=
  (bitLenAux_bounds n n (Nat.le_refl n)).2 h

theorem bitLen_pos (n : Nat) (h : 0 < n) : 0 < bitLen n := by
  by_contra hc
  have h0 : bitLen n = 0 := by omega
  have := lt_two_pow_bitLen n
  rw [h0] at this
  omega

theorem bitLen_le_of_lt (n k : Nat) (h : n < 2 ^ k) (hn : 0 < n) : bitLen n ≤ k := by
  by_contra hc
  have h1 : 2 ^ (k + 1) ≤ 2 ^ bitLen n := Nat.pow_le_pow_right (by decide) (by omega)
  have h2 := two_pow_bitLen_le n hn
  rw [pow_succ] at h1
  omega

theorem bitLen_one : bitLen 1 = 1 := by decide

theorem floorLog2_one (n : Nat) (hn : 0 < n) : F32.floorLog2 n 1 = (bitLen n : Int) - 1 := by
  have hpos := bitLen_pos n hn
  have hle := two_pow_bitLen_le n hn
  obtain ⟨L, hL⟩ : ∃ L, bitLen n = L + 1 := ⟨bitLen n - 1, by omega⟩
  unfold F32.floorLog2
  rw [bitLen_one, hL]
  rw [hL, pow_succ] at hle
  have e1 : (((L + 1 : Nat) : Int) - ((1 : Nat) : Int)).toNat = L := by omega
  have e2 : (-(((L + 1 : Nat) : Int) - ((1 : Nat) : Int))).toNat = 0 := by omega
  simp only [e1, e2]
  rw [if_pos (by omega)]
  omega

theorem pack_normal (s : Bool) (m : Nat) (qe : Int) (h1 : 8388608 ≤ m) (h2 : m < 16777216)
    (h3 : -149 ≤ qe) (h4 : qe ≤ 104) :
    (F32.pack s m qe).sign = s ∧ (F32.pack s m qe).exp.val = (qe + 150).toNat
      ∧ (F32.pack s m qe).man.val = m - 8388608 := by
  unfold F32.pack
  rw [dif_neg (by omega), dif_pos (by omega)]
  exact ⟨rfl, rfl, rfl⟩

theorem roundNE_nat (s : Bool) (n : Nat) (hn : 0 < n) (h : n < 16777216) :
    F32.roundNE s n 1 = F32.pack s (n * 2 ^ (24 - bitLen n)) ((bitLen n : Int) - 24) := by
  have hpos := bitLen_pos n hn
  have hle := two_pow_bitLen_le n hn
  have hlt := lt_two_pow_bitLen n
  have h24 : bitLen n ≤ 24 := bitLen_le_of_lt n 24 (by norm_num; exact h) hn
  unfold F32.roundNE
  rw [if_neg (by omega), floorLog2_one n hn]
  have e0 : max ((bitLen n : Int) - 1 - 23) (-149) = (bitLen n : Int) - 24 := by omega
  have e1 : (-((bitLen n : Int) - 24)).toNat = 24 - bitLen n := by omega
  have e2 : ((bitLen n : Int) - 24).toNat = 0 := by omega
  simp only [e0, e1, e2, pow_zero, Nat.mul_one, Nat.div_one, Nat.mod_one, Nat.mul_zero,
    Nat.lt_one_iff, ite_true, Nat.one_mul]
  have hm : n * 2 ^ (24 - bitLen n) < 16777216 := by
    calc n * 2 ^ (24 - bitLen n) < 2 ^ bitLen n * 2 ^ (24 - bitLen n) :=
          Nat.mul_lt_mul_of_pos_right hlt (by positivity)
      _ = 2 ^ 24 := by rw [← pow_add]; congr 1; omega
      _ = 16777216 := by norm_num
  simp [Nat.ne_of_lt hm]

theorem roundNE_nat_fields (s : Bool) (n : Nat) (h : n < 16777216) :
    (F32.roundNE s n 1).sign = s ∧ (F32.roundNE s n 1).exp.val ≠ 255
      ∧ (F32.roundNE s n 1).units = n * 2 ^ 149 := by
  by_cases hn : n = 0
  · subst hn
    simp [F32.roundNE, F32.zero, F32.units, F32.sig]
  · have hn0 : 0 < n := Nat.pos_of_ne_zero hn
    have hpos := bitLen_pos n hn0
    have hle := two_pow_bitLen_le n hn0
    have hlt := lt_two_pow_bitLen n
    have h24 : bitLen n ≤ 24 := bitLen_le_of_lt n 24 (by norm_num; exact h) hn0
    obtain ⟨L, hL⟩ : ∃ L, bitLen n = L + 1 := ⟨bitLen n - 1, by omega⟩
    have hsplit : 2 ^ (L + 1) * 2 ^ (24 - (L + 1)) = 16777216 := by
      rw [← pow_add]
      have : L + 1 + (24 - (L + 1)) = 24 := by omega
      rw [this]
      norm_num
    rw [hL] at hle hlt h24
    have hm2 : n * 2 ^ (24 - (L + 1)) < 16777216 := by
      calc n * 2 ^ (24 - (L + 1)) < 2 ^ (L + 1) * 2 ^ (24 - (L + 1)) :=
            Nat.mul_lt_mul_of_pos_right hlt (by positivity)
        _ = 16777216 := hsplit
    have hm1 : 8388608 ≤ n * 2 ^ (24 - (L + 1)) := by
      have : 2 ^ (L + 1) * 2 ^ (24 - (L + 1)) ≤ 2 * n * 2 ^ (24 - (L + 1)) :=
        Nat.mul_le_mul_right _ hle
      rw [hsplit, Nat.mul_assoc] at this
      omega
    rw [roundNE_nat s n hn0 h, hL]
    obtain ⟨p1, p2, p3⟩ := pack_normal s (n * 2 ^ (24 - (L + 1))) (((L + 1 : Nat) : Int) - 24)
      hm1 hm2 (by omega) (by omega)
    have e1 : ((((L + 1 : Nat) : Int) - 24) + 150).toNat = L + 127 := by omega
    rw [e1] at p2
    refine ⟨p1, by omega, ?_⟩
    unfold F32.units F32.sig F32.sexp
    rw [p2, p3, if_neg (by omega), if_neg (by omega)]
    have e2 : 8388608 + (n * 2 ^ (24 - (L + 1)) - 8388608) = n * 2 ^ (24 - (L + 1)) := by omega
    have e3 : 24 - (L + 1) + (L + 127 - 1) = 149 := by omega
    rw [e2, Nat.mul_assoc, ← pow_add, e3]

theorem roundHalfAway_signed (s : Bool) (q : ℚ) (hq : 0 ≤ q) :
    roundHalfAway ((if s then -1 else 1) * q) = if s then -⌊q + 1 / 2⌋ else ⌊q + 1 / 2⌋ := by
  unfold roundHalfAway
  cases s
  · simp [hq]
  · by_cases h0 : q = 0
    · subst h0
      norm_num
    · have hpos : 0 < q := lt_of_le_of_ne hq (Ne.symm h0)
      simp [hpos]

theorem floor_div_pow_add_half (a k : Nat) :
    ⌊(a : ℚ) / 2 ^ (k + 1) + 1 / 2⌋ = (((a + 2 ^ k) / 2 ^ (k + 1) : Nat) : Int) := by
  have h : (a : ℚ) / 2 ^ (k + 1) + 1 / 2 = ((a + 2 ^ k : Nat) : ℚ) / ((2 ^ (k + 1) : Nat) : ℚ) := by
    push_cast
    field_simp
    ring
  rw [h, Rat.floor_natCast_div_natCast]
  norm_cast

theorem abs_roundHalfAway_sub_le (q : ℚ) : |(roundHalfAway q : ℚ) - q| ≤ 1 / 2 := by
  unfold roundHalfAway
  rw [abs_le]
  split_ifs with h
  · have h1 := Int.floor_le (q + 1 / 2)
    have h2 := Int.lt_floor_add_one (q + 1 / 2)
    constructor <;> linarith
  · have h1 := Int.floor_le (-q + 1 / 2)
    have h2 := Int.lt_floor_add_one (-q + 1 / 2)
    push_cast
    constructor <;> linarith

theorem floor_natCast_add_half (N : Nat) : ⌊(N : ℚ) + 1 / 2⌋ = (N : Int) := by
  rw [Int.floor_eq_iff]
  constructor
  · push_cast; linarith
  · push_cast; linarith

theorem sig_lt (y : F32) : y.sig < 16777216 := by
  unfold F32.sig
  have := y.man.isLt
  split_ifs <;> omega

theorem toRat_eq (y : F32) (hfin : y.exp.val ≠ 255) :
    y.toRat = (if y.sign then -1 else 1) * ((y.units : ℚ) / 2 ^ 149) := by
  unfold F32.toRat
  rw [if_neg hfin]

theorem roundf_fields (y : F32) (hfin : y.exp.val ≠ 255) :
    ∃ N : Nat, (F32.roundf y).sign = y.sign ∧ (F32.roundf y).exp.val ≠ 255
      ∧ (F32.roundf y).units = N * 2 ^ 149
      ∧ roundHalfAway y.toRat = if y.sign then -(N : Int) else (N : Int) := by
  by_cases h150 : 150 ≤ y.exp.val
  · refine ⟨y.sig * 2 ^ (y.exp.val - 150), ?_⟩
    have hu : y.units = y.sig * 2 ^ (y.exp.val - 150) * 2 ^ 149 := by
      unfold F32.units F32.sexp
      rw [if_neg (by omega), Nat.mul_assoc, ← pow_add]
      have : y.exp.val - 150 + 149 = y.exp.val - 1 := by omega
      rw [this]
    have hr : F32.roundf y = y := by
      unfold F32.roundf
      rw [if_pos h150]
    rw [hr]
    refine ⟨rfl, hfin, hu, ?_⟩
    have hq : ((y.units : ℚ) / 2 ^ 149) = ((y.sig * 2 ^ (y.exp.val - 150) : Nat) : ℚ) := by
      rw [hu, Nat.cast_mul _ (2 ^ 149), mul_div_assoc, Nat.cast_pow, Nat.cast_ofNat,
        div_self (pow_ne_zero _ two_ne_zero), mul_one]
    rw [toRat_eq y hfin, hq, roundHalfAway_signed _ _ (Nat.cast_nonneg _), floor_natCast_add_half]
  · have hs : y.sexp ≤ 148 := by
      unfold F32.sexp
      split_ifs <;> omega
    obtain ⟨j, hj⟩ : ∃ j, 149 - y.sexp = j + 1 := ⟨148 - y.sexp, by omega⟩
    refine ⟨(y.sig + 2 ^ j) / 2 ^ (j + 1), ?_⟩
    have hN : (y.sig + 2 ^ j) / 2 ^ (j + 1) < 16777216 := by
      rw [Nat.div_lt_iff_lt_mul (by positivity)]
      have h1 := sig_lt y
      have h2 : 0 < 2 ^ j := by positivity
      rw [pow_succ]
      nlinarith
    have hr : F32.roundf y = F32.roundNE y.sign ((y.sig + 2 ^ j) / 2 ^ (j + 1)) 1 := by
      unfold F32.roundf
      rw [if_neg h150]
      simp only [hj, Nat.add_sub_cancel]
    obtain ⟨p1, p2, p3⟩ := roundNE_nat_fields y.sign _ hN
    rw [hr]
    refine ⟨p1, p2, p3, ?_⟩
    have hq : ((y.units : ℚ) / 2 ^ 149) = (y.sig : ℚ) / 2 ^ (j + 1) := by
      have e : 149 = y.sexp + (j + 1) := by omega
      unfold F32.units
      push_cast
      rw [e, pow_add]
      field_simp
      ring
    rw [toRat_eq y hfin, hq, roundHalfAway_signed _ _ (by positivity), floor_div_pow_add_half]

theorem roundHalfAway_toRat (y : F32) (hfin : y.exp.val ≠ 255) :
    roundHalfAway y.toRat = (F32.roundf y).trunc := by
  obtain ⟨N, h1, _, h3, h4⟩ := roundf_fields y hfin
  unfold F32.trunc
  rw [h3, h1, Nat.mul_div_cancel _ (by positivity), h4]

theorem roundf_exp_eq (y : F32) (h : y.exp.val = 255) : F32.roundf y = y := by
  unfold F32.roundf
  rw [if_pos (by omega)]

theorem finite_of_intDefined_roundf (y : F32) (h : F32.IntDefined (F32.roundf y)) :
    y.exp.val ≠ 255 := by
  intro hc
  rw [roundf_exp_eq y hc] at h
  exact h.1 hc

theorem intDefined_roundf_iff (y : F32) :
    F32.IntDefined (F32.roundf y)
      ↔ y.exp.val ≠ 255 ∧ INT_MIN ≤ roundHalfAway y.toRat ∧ roundHalfAway y.toRat ≤ INT_MAX := by
  constructor
  · intro h
    have hfin := finite_of_intDefined_roundf y h
    rw [roundHalfAway_toRat y hfin]
    exact ⟨hfin, h.2⟩
  · rintro ⟨hfin, h⟩
    rw [roundHalfAway_toRat y hfin] at h
    obtain ⟨_, _, h2, _, _⟩ := roundf_fields y hfin
    exact ⟨h2, h⟩

theorem toInt_of_intDefined (cv : IntConv) (x : F32) (h : F32.IntDefined x) :
    F32.toInt cv x = x.trunc := by
  unfold F32.toInt
  rw [if_pos h]

theorem toInt_roundf (cv : IntConv) (y : F32) (h : F32.IntDefined (F32.roundf y)) :
    F32.toInt cv (F32.roundf y) = roundHalfAway y.toRat := by
  rw [toInt_of_intDefined cv _ h, roundHalfAway_toRat y (finite_of_intDefined_roundf y h)]

theorem toInt_le_INT_MAX (cv : IntConv) (x : F32) : F32.toInt cv x ≤ INT_MAX := by
  unfold F32.toInt
  split_ifs with h
  · exact h.2.2
  · exact cv.invalid_le x

theorem INT_MIN_le_toInt (cv : IntConv) (x : F32) : INT_MIN ≤ F32.toInt cv x := by
  unfold F32.toInt
  split_ifs with h
  · exact h.2.1
  · exact cv.invalid_ge x

theorem toRat_of_units (x : F32) (N : Nat) (hfin : x.exp.val ≠ 255) (hs : x.sign = false)
    (hu : x.units = N * 2 ^ 149) : x.toRat = (N : ℚ) := by
  rw [toRat_eq x hfin, hu, hs, Nat.cast_mul _ (2 ^ 149), mul_div_assoc, Nat.cast_pow,
    Nat.cast_ofNat, div_self (pow_ne_zero _ two_ne_zero), mul_one]
  simp

/-! ## Lemmas on the decimal text of an `int` -/

theorem digitVal_digitChar (k : Nat) (h : k < 10) : digitVal (Nat.digitChar k) = k := by
  interval_cases k <;> rfl

theorem digitChar_ne_minus (k : Nat) (h : k < 10) : Nat.digitChar k ≠ '-' := by
  interval_cases k <;> decide

theorem toDigitsCore_spec (fuel : Nat) :
    ∀ n ds, n < fuel → ∃ l, Nat.toDigitsCore 10 fuel n ds = l ++ ds ∧ l ≠ []
      ∧ (∀ c ∈ l, c ≠ '-') ∧ ∀ a, decVal a l = a * 10 ^ l.length + n := by
  induction fuel with
  | zero => intro n ds h; omega
  | succ f ih =>
    intro n ds h
    unfold Nat.toDigitsCore
    by_cases h0 : n / 10 = 0
    · refine ⟨[Nat.digitChar (n % 10)], ?_, by simp, ?_, ?_⟩
      · simp [h0]
      · intro c hc
        rw [List.mem_singleton] at hc
        rw [hc]
        exact digitChar_ne_minus _ (Nat.mod_lt _ (by decide))
      · intro a
        simp only [decVal, List.foldl_cons, List.foldl_nil, List.length_singleton, pow_one]
        rw [digitVal_digitChar _ (Nat.mod_lt _ (by decide))]
        omega
    · obtain ⟨l, h1, _, h3, h4⟩ := ih (n / 10) (Nat.digitChar (n % 10) :: ds) (by omega)
      refine ⟨l ++ [Nat.digitChar (n % 10)], ?_, by simp, ?_, ?_⟩
      · simp only [h0, if_false]
        rw [h1]
        simp
      · intro c hc
        rw [List.mem_append, List.mem_singleton] at hc
        rcases hc with hc | hc
        · exact h3 c hc
        · rw [hc]
          exact digitChar_ne_minus _ (Nat.mod_lt _ (by decide))
      · intro a
        have e := h4 a
        unfold decVal at e ⊢
        rw [List.foldl_append, e]
        simp only [List.foldl_cons, List.foldl_nil, List.length_append, List.length_singleton]
        rw [digitVal_digitChar _ (Nat.mod_lt _ (by decide)), pow_succ]
        have := Nat.div_add_mod n 10
        nlinarith

theorem repr_spec (n : Nat) :
    (Nat.repr n).data ≠ [] ∧ (∀ c ∈ (Nat.repr n).data, c ≠ '-') ∧ decVal 0 (Nat.repr n).data = n := by
  obtain ⟨l, h1, h2, h3, h4⟩ := toDigitsCore_spec (n + 1) n [] (by omega)
  have e : (Nat.repr n).data = l := by
    unfold Nat.repr Nat.toDigits
    rw [h1]
    simp [List.asString]
  rw [e]
  refine ⟨h2, h3, ?_⟩
  rw [h4 0]
  omega

theorem repr_injective (m n : Nat) (h : Nat.repr m = Nat.repr n) : m = n := by
  have h1 := (repr_spec m).2.2
  rw [h, (repr_spec n).2.2] at h1
  exact h1.symm

theorem minus_repr_ne_repr (m n : Nat) : "-" ++ Nat.repr m ≠ Nat.repr n := by
  intro h
  obtain ⟨_, h2, _⟩ := repr_spec n
  have hmem : '-' ∈ (Nat.repr n).data := by
    rw [← h, String.data_append]
    exact List.mem_append_left _ (by decide)
  exact h2 _ hmem rfl

theorem to_string_injective (a b : Int) (h : to_string a = to_string b) : a = b := by
  unfold to_string at h
  split_ifs at h with ha hb hb
  · have h' : (Nat.repr a.natAbs) = (Nat.repr b.natAbs) := by
      have := congrArg String.data h
      rw [String.data_append, String.data_append] at this
      exact String.ext (List.append_cancel_left this)
    have := repr_injective _ _ h'
    omega
  · exact absurd h (minus_repr_ne_repr _ _)
  · exact absurd h.symm (minus_repr_ne_repr _ _)
  · have := repr_injective _ _ h
    omega

/-! ## Lemmas on the status text -/

theorem getPowerStatus_eq (cv : IntConv) (d : BatteryDevice) :
    d.getPowerStatus cv = specStatusText d.power d.charging (d.percent cv) := by
  unfold BatteryDevice.getPowerStatus specStatusText BatteryDevice.percent
  cases d.power <;> cases d.charging <;> simp [String.append_assoc]

theorem percent_of_intDefined (cv : IntConv) (d : BatteryDevice)
    (h : F32.IntDefined (F32.roundf (F32.mul d.charge (F32.ofInt 100)))) :
    d.percent cv = specPercent d.charge := by
  unfold BatteryDevice.percent specPercent
  exact toInt_roundf cv _ h

theorem percent_eq_x86 (cv : IntConv) (d : BatteryDevice)
    (h : F32.IntDefined (F32.roundf (F32.mul d.charge (F32.ofInt 100)))) :
    d.percent cv = d.percent x86 := by
  unfold BatteryDevice.percent
  rw [toInt_of_intDefined cv _ h, toInt_of_intDefined x86 _ h]

theorem getPowerStatus_eq_x86 (cv : IntConv) (d : BatteryDevice)
    (h : F32.IntDefined (F32.roundf (F32.mul d.charge (F32.ofInt 100)))) :
    d.getPowerStatus cv = d.getPowerStatus x86 := by
  rw [getPowerStatus_eq, getPowerStatus_eq, percent_eq_x86 cv d h]


theorem startsWith_append (pre t : String) : StartsWith (pre ++ t) pre := by
  unfold StartsWith
  rw [String.data_append]
  exact List.prefix_append _ _

theorem endsWith_append (t post : String) : EndsWith (t ++ post) post := by
  unfold EndsWith
  rw [String.data_append]
  exact List.suffix_append _ _

theorem not_startsWith_battery (t : String) :
    ¬ StartsWith ("battery life at " ++ t) "device off, " := by
  unfold StartsWith
  rw [String.data_append]
  intro h
  have h1 : "device off, ".data = 'd' :: "evice off, ".data := rfl
  have h2 : "battery life at ".data = 'b' :: "attery life at ".data := rfl
  rw [h1, h2, List.cons_append, List.cons_prefix_cons] at h
  exact absurd h.1 (by decide)

theorem not_endsWith_percent (t : String) :
    ¬ EndsWith (t ++ "%") ", and charging" := by
  unfold EndsWith
  rw [String.data_append, ← List.reverse_prefix, List.reverse_append]
  intro h
  have h1 : ", and charging".data.reverse = 'g' :: ", and chargin".data.reverse := by decide
  have h2 : "%".data.reverse = ['%'] := rfl
  rw [h1, h2, List.singleton_append, List.cons_prefix_cons] at h
  exact absurd h.1 (by decide)


theorem specStatusText_percent_inj (pw ch : Bool) (p q : Int)
    (h : specStatusText pw ch p = specStatusText pw ch q) : p = q := by
  unfold specStatusText at h
  have h1 := congrArg String.data h
  simp only [String.data_append] at h1
  have h2 := List.append_cancel_right h1
  have h3 := List.append_cancel_left h2
  have h4 := List.append_cancel_right h3
  have h5 := List.append_cancel_left h4
  exact to_string_injective p q (String.ext h5)

set_option maxRecDepth 20000 in
theorem specPercent_thirty_million : specPercent (F32.lit 30000000 1) = 3000000000 := by
  unfold specPercent
  rw [roundHalfAway_toRat _ (by decide)]
  decide

/-! ## The battery status text -/

/-- C1 (as amended). Whenever the conversion `(int) round(charge * 100)` is defined (the
rounded single-precision product is finite and within the range of `int`), for every
implementation, power flag and charging flag, `BatteryDevice::getPowerStatus` returns
exactly (`device off, ` when not powered) ++ `battery life at ` ++ decimal(p) ++ `%` ++
(`, and charging` when charging), with `p` the product `charge * 100` rounded to the nearest
integer, halves away from zero; in particular the text contains `battery life at p%`. -/
theorem C1_getPowerStatus_format (cv : IntConv) (d : BatteryDevice)
    (h : F32.IntDefined (F32.roundf (F32.mul d.charge (F32.ofInt 100)))) :
    d.getPowerStatus cv = specStatusText d.power d.charging (specPercent d.charge)
      ∧ ("battery life at " ++ to_string (specPercent d.charge) ++ "%").data
          <:+: (d.getPowerStatus cv).data := by
  have e : d.getPowerStatus cv = specStatusText d.power d.charging (specPercent d.charge) := by
    rw [getPowerStatus_eq, percent_of_intDefined cv d h]
  refine ⟨e, ?_⟩
  rw [e]
  unfold specStatusText
  simp only [String.data_append]
  exact ⟨_, _, rfl⟩

set_option maxRecDepth 20000 in
/-- C1, witness: a newly constructed battery device (charge `1.0f`), under the x86
conversion. -/
theorem C1_getPowerStatus_format_witness :
    F32.IntDefined (F32.roundf (F32.mul BatteryDevice.new.charge (F32.ofInt 100)))
      ∧ BatteryDevice.new.getPowerStatus x86
          = specStatusText BatteryDevice.new.power BatteryDevice.new.charging
              (specPercent BatteryDevice.new.charge)
      ∧ ("battery life at " ++ to_string (specPercent BatteryDevice.new.charge) ++ "%").data
          <:+: (BatteryDevice.new.getPowerStatus x86).data :=
  ⟨by decide, C1_getPowerStatus_format x86 BatteryDevice.new (by decide)⟩

set_option maxRecDepth 20000 in
/-- C1, counterexample: after `handleUpdateCharge(30000000.0f)` on a new battery device the
charge is `30000000.0f` and `charge * 100` is `3000000000`, which no `int` holds.  The claimed
text is `device off, battery life at 3000000000%`; the code returns another text under every
implementation, and `device off, battery life at -2147483648%` with the x86 conversion. -/
theorem C1_counterexample :
    (BatteryDevice.new.handleUpdateCharge (F32.lit 30000000 1)).charge = F32.lit 30000000 1
      ∧ specStatusText false false (specPercent (F32.lit 30000000 1))
          = "device off, battery life at 3000000000%"
      ∧ (BatteryDevice.new.handleUpdateCharge (F32.lit 30000000 1)).getPowerStatus x86
          = "device off, battery life at -2147483648%"
      ∧ (∀ cv : IntConv,
          (BatteryDevice.new.handleUpdateCharge (F32.lit 30000000 1)).getPowerStatus cv
            ≠ specStatusText false false (specPercent (F32.lit 30000000 1))) := by
  refine ⟨by decide, ?_, by decide, fun cv h => ?_⟩
  · rw [specPercent_thirty_million]
    decide
  · rw [getPowerStatus_eq] at h
    have hp := specStatusText_percent_inj false false _ _ h
    rw [specPercent_thirty_million] at hp
    have hle := toInt_le_INT_MAX cv (F32.roundf (F32.mul
      (BatteryDevice.new.handleUpdateCharge (F32.lit 30000000 1)).charge (F32.ofInt 100)))
    have hle2 : (BatteryDevice.new.handleUpdateCharge (F32.lit 30000000 1)).percent cv
        ≤ 2147483647 := hle
    omega

/-! ## Power calls on the devices without a battery -/

theorem device_status_on_iff (d : Device) : d.getPowerStatus = "device on" ↔ d.power = true := by
  unfold Device.getPowerStatus
  cases d.power <;> decide

theorem echoSub_foldl_power (cs : List PowerCall) (d : EchoSub) :
    (cs.foldl EchoSub.call d).power
      = match cs.getLast? with
        | some PowerCall.handlePowerOn => true
        | some PowerCall.handlePowerOff => false
        | none => d.power := by
  induction cs using List.reverseRecOn with
  | nil => rfl
  | append_singleton l c _ =>
    rw [List.foldl_append, List.getLast?_append]
    cases c <;> rfl

theorem fireTV_foldl_power (cs : List PowerCall) (d : FireTV) :
    (cs.foldl FireTV.call d).power
      = match cs.getLast? with
        | some PowerCall.handlePowerOn => true
        | some PowerCall.handlePowerOff => false
        | none => d.power := by
  induction cs using List.reverseRecOn with
  | nil => rfl
  | append_singleton l c _ =>
    rw [List.foldl_append, List.getLast?_append]
    cases c <;> rfl

/-- C2. For every finite sequence of `handlePowerOn` / `handlePowerOff` calls applied to a
newly constructed `EchoSub` or `FireTV`, `getPowerStatus` returns `device on` if and only if
the sequence is non-empty and its last call is `handlePowerOn`; otherwise (the empty sequence
included) it returns `device off`. -/
theorem C2_status_follows_last_power_call (cs : List PowerCall) :
    ((cs.foldl EchoSub.call EchoSub.new).getPowerStatus = "device on"
        ↔ cs.getLast? = some PowerCall.handlePowerOn)
      ∧ (cs.foldl EchoSub.call EchoSub.new).getPowerStatus
          = (if cs.getLast? = some PowerCall.handlePowerOn then "device on" else "device off")
      ∧ ((cs.foldl FireTV.call FireTV.new).getPowerStatus = "device on"
        ↔ cs.getLast? = some PowerCall.handlePowerOn)
      ∧ (cs.foldl FireTV.call FireTV.new).getPowerStatus
          = (if cs.getLast? = some PowerCall.handlePowerOn then "device on" else "device off") := by
  have hE := echoSub_foldl_power cs EchoSub.new
  have hF := fireTV_foldl_power cs FireTV.new
  unfold EchoSub.getPowerStatus FireTV.getPowerStatus
  rw [device_status_on_iff, device_status_on_iff]
  unfold Device.getPowerStatus
  rw [hE, hF]
  rcases h : cs.getLast? with _ | c
  · simp [EchoSub.new, FireTV.new, Device.new]
  · cases c <;> simp

/-! ## The two laws of the battery text -/

/-- C3. Prefix law: for every battery-variant state (any charge, any charging flag) and
every implementation, the text returned by `BatteryDevice::getPowerStatus` starts with
`device off, ` if and only if `power` is false. -/
theorem C3_prefix_law (cv : IntConv) (d : BatteryDevice) :
    StartsWith (d.getPowerStatus cv) "device off, " ↔ d.power = false := by
  rw [getPowerStatus_eq]
  unfold specStatusText
  cases hp : d.power
  · simp only [Bool.false_eq_true, if_false, iff_true, String.append_assoc]
    exact startsWith_append _ _
  · simp only [if_true, String.append_assoc, String.empty_append, Bool.true_eq_false, iff_false]
    exact not_startsWith_battery _

/-- C4. Suffix law: for every battery-variant state (any charge, any power flag) and every
implementation, the text returned by `BatteryDevice::getPowerStatus` ends with
`, and charging` if and only if `charging` is true. -/
theorem C4_suffix_law (cv : IntConv) (d : BatteryDevice) :
    EndsWith (d.getPowerStatus cv) ", and charging" ↔ d.charging = true := by
  rw [getPowerStatus_eq]
  unfold specStatusText
  cases hc : d.charging
  · simp only [Bool.false_eq_true, if_false, iff_false, String.append_empty, ← String.append_assoc]
    exact not_endsWith_percent _
  · simp only [if_true, iff_true]
    exact endsWith_append _ _

/-! ## The Kindle scenario and the independence of its flags -/

set_option maxRecDepth 20000 in
theorem kindle_scenario_texts (cv : IntConv) :
    Kindle.new.toBatteryDevice.getPowerStatus cv = "device off, battery life at 100%"
      ∧ Kindle.new.handlePlug.toBatteryDevice.getPowerStatus cv
          = "device off, battery life at 100%, and charging"
      ∧ Kindle.new.handlePlug.handleUnplug.toBatteryDevice.getPowerStatus cv
          = "device off, battery life at 100%"
      ∧ (Kindle.new.handlePlug.handleUnplug.handleUpdateCharge
            (F32.neg (F32.lit 1 100))).toBatteryDevice.getPowerStatus cv
          = "device off, battery life at 99%"
      ∧ (Kindle.new.handlePlug.handleUnplug.handleUpdateCharge
            (F32.neg (F32.lit 1 100))).handlePowerOn.toBatteryDevice.getPowerStatus cv
          = "battery life at 99%"
      ∧ (Kindle.new.handlePlug.handleUnplug.handleUpdateCharge
            (F32.neg (F32.lit 1 100))).handlePowerOn.handlePlug.toBatteryDevice.getPowerStatus cv
          = "battery life at 99%, and charging" :=
  ⟨(getPowerStatus_eq_x86 cv _ (by decide)).trans (by decide),
   (getPowerStatus_eq_x86 cv _ (by decide)).trans (by decide),
   (getPowerStatus_eq_x86 cv _ (by decide)).trans (by decide),
   (getPowerStatus_eq_x86 cv _ (by decide)).trans (by decide),
   (getPowerStatus_eq_x86 cv _ (by decide)).trans (by decide),
   (getPowerStatus_eq_x86 cv _ (by decide)).trans (by decide)⟩

set_option maxRecDepth 20000 in
/-- C5. Scenario C, for every implementation: the status text of a newly constructed `Kindle`
is `device off, battery life at 100%`; after `handlePlug` it is
`device off, battery life at 100%, and charging`; after `handleUnplug` it is again
`device off, battery life at 100%`; after `handleUpdateCharge(-.01f)` it is
`device off, battery life at 99%`; after `handlePowerOn` it is `battery life at 99%`; after
`handlePlug` it is `battery life at 99%, and charging`; and `demoKindle` prints these texts
on both channels at each stage. -/
theorem C5_scenario_kindle (cv : IntConv) :
    Kindle.new.toBatteryDevice.getPowerStatus cv = "device off, battery life at 100%"
      ∧ Kindle.new.handlePlug.toBatteryDevice.getPowerStatus cv
          = "device off, battery life at 100%, and charging"
      ∧ Kindle.new.handlePlug.handleUnplug.toBatteryDevice.getPowerStatus cv
          = "device off, battery life at 100%"
      ∧ (Kindle.new.handlePlug.handleUnplug.handleUpdateCharge
            (F32.neg (F32.lit 1 100))).toBatteryDevice.getPowerStatus cv
          = "device off, battery life at 99%"
      ∧ (Kindle.new.handlePlug.handleUnplug.handleUpdateCharge
            (F32.neg (F32.lit 1 100))).handlePowerOn.toBatteryDevice.getPowerStatus cv
          = "battery life at 99%"
      ∧ (Kindle.new.handlePlug.handleUnplug.handleUpdateCharge
            (F32.neg (F32.lit 1 100))).handlePowerOn.handlePlug.toBatteryDevice.getPowerStatus cv
          = "battery life at 99%, and charging"
      ∧ demoKindle cv "" = emitLines
          ["--- Kindle ---",
           "Kindle instantiated",
           "Kindle vocalizing: device off, battery life at 100%",
           "Kindle rendering: device off, battery life at 100%",
           "",
           "Kindle plugged in",
           "Kindle vocalizing: device off, battery life at 100%, and charging",
           "Kindle rendering: device off, battery life at 100%, and charging",
           "",
           "Kindle unplugged",
           "Kindle vocalizing: device off, battery life at 100%",
           "Kindle rendering: device off, battery life at 100%",
           "",
           "Kindle lost some charge",
           "Kindle vocalizing: device off, battery life at 99%",
           "Kindle rendering: device off, battery life at 99%",
           "",
           "Kindle turned on",
           "Kindle vocalizing: battery life at 99%",
           "Kindle rendering: battery life at 99%",
           "",
           "Kindle plugged in",
           "Kindle vocalizing: battery life at 99%, and charging",
           "Kindle rendering: battery life at 99%, and charging",
           ""] := by
  obtain ⟨h1, h2, h3, h4, h5, h6⟩ := kindle_scenario_texts cv
  refine ⟨h1, h2, h3, h4, h5, h6, ?_⟩
  unfold demoKindle
  simp only [Kindle.announcePowerStatus, Kindle.vocalizePowerStatus, Kindle.renderPowerStatus]
  rw [h1, h2, h3, h4, h5, h6]
  decide

/-- C6. Independence: for every `Kindle` state, `handlePlug` and `handleUnplug` leave `power`
and `charge` unchanged, and `handlePowerOn` and `handlePowerOff` leave `charging` and `charge`
unchanged. -/
theorem C6_independence (k : Kindle) :
    (k.handlePlug.power = k.power ∧ k.handlePlug.charge = k.charge)
      ∧ (k.handleUnplug.power = k.power ∧ k.handleUnplug.charge = k.charge)
      ∧ (k.handlePowerOn.charging = k.charging ∧ k.handlePowerOn.charge = k.charge)
      ∧ (k.handlePowerOff.charging = k.charging ∧ k.handlePowerOff.charge = k.charge) :=
  ⟨⟨rfl, rfl⟩, ⟨rfl, rfl⟩, ⟨rfl, rfl⟩, ⟨rfl, rfl⟩⟩

/-! ## Announcements -/

theorem battery_status_ne_device_status (cv : IntConv) (b : BatteryDevice) (d : Device) :
    b.getPowerStatus cv ≠ d.getPowerStatus := by
  intro h
  rw [getPowerStatus_eq] at h
  unfold specStatusText Device.getPowerStatus at h
  cases hp : b.power
  · have hs : StartsWith ("device " ++ if d.power = true then "on" else "off") "device off, " := by
      rw [← h, hp]
      simp only [Bool.false_eq_true, if_false, String.append_assoc]
      exact startsWith_append _ _
    revert hs
    cases d.power <;> decide
  · have hs : StartsWith ("device " ++ if d.power = true then "on" else "off")
        "battery life at " := by
      rw [← h, hp]
      simp only [if_true, String.append_assoc, String.empty_append]
      exact startsWith_append _ _
    revert hs
    cases d.power <;> decide

set_option maxRecDepth 20000 in
/-- C7. For every `FireTV` state, `announcePowerStatus` appends to `cout` exactly three lines
in this order: `FireTV vocalizing: ` ++ s, then `FireTV rendering: ` ++ s, then one empty
separator line, where s is `getPowerStatus` of the current state in both lines (three line
breaks in all); the three announcements of `demoFireTV` follow this pattern. -/
theorem C7_fireTV_announce (t : FireTV) (cout : String) :
    (t.announcePowerStatus cout).2
        = cout ++ emitLines ["FireTV vocalizing: " ++ t.getPowerStatus,
            "FireTV rendering: " ++ t.getPowerStatus, ""]
      ∧ (emitLines ["FireTV vocalizing: " ++ t.getPowerStatus,
            "FireTV rendering: " ++ t.getPowerStatus, ""]).data.count (Char.ofNat 10) = 3
      ∧ demoFireTV "" = emitLines
          ["--- Fire TV---",
           "Fire TV instantiated",
           "FireTV vocalizing: device off",
           "FireTV rendering: device off",
           "",
           "Fire TV turned on",
           "FireTV vocalizing: device on",
           "FireTV rendering: device on",
           "",
           "Fire TV turned off",
           "FireTV vocalizing: device off",
           "FireTV rendering: device off",
           ""] := by
  refine ⟨?_, ?_, by decide⟩
  · simp only [FireTV.announcePowerStatus, FireTV.vocalizePowerStatus, FireTV.renderPowerStatus,
      emitLines, String.join, List.map_cons, List.map_nil, List.foldl_cons, List.foldl_nil,
      String.append_assoc, String.empty_append]
  · unfold FireTV.getPowerStatus Device.getPowerStatus
    cases t.power <;> decide

/-- C8. For every `Kindle` state and every implementation, `announcePowerStatus` appends to
`cout` the line `Kindle vocalizing: ` ++ b, then `Kindle rendering: ` ++ b, then one empty
separator line, where b is `BatteryDevice::getPowerStatus` of the current state; b is never
the text `Device::getPowerStatus` of any device `d`, neither `device on` nor `device off`. -/
theorem C8_kindle_announce (cv : IntConv) (k : Kindle) (cout : String) (d : Device) :
    (k.announcePowerStatus cv cout).2
        = cout ++ emitLines ["Kindle vocalizing: " ++ k.toBatteryDevice.getPowerStatus cv,
            "Kindle rendering: " ++ k.toBatteryDevice.getPowerStatus cv, ""]
      ∧ k.toBatteryDevice.getPowerStatus cv ≠ d.getPowerStatus
      ∧ k.toBatteryDevice.getPowerStatus cv ≠ "device on"
      ∧ k.toBatteryDevice.getPowerStatus cv ≠ "device off" := by
  refine ⟨?_, battery_status_ne_device_status cv _ d,
    battery_status_ne_device_status cv _ ⟨true⟩, battery_status_ne_device_status cv _ ⟨false⟩⟩
  simp only [Kindle.announcePowerStatus, Kindle.vocalizePowerStatus, Kindle.renderPowerStatus,
    emitLines, String.join, List.map_cons, List.map_nil, List.foldl_cons, List.foldl_nil,
    String.append_assoc, String.empty_append]

set_option maxRecDepth 20000 in
/-- C9. Scenario A: for every `EchoSub` state, `announcePowerStatus` appends to `cout` exactly
one channel line `EchoSub vocalizing: ` ++ s followed by one empty separator line (two line
breaks in all), where s is `device off` for a new instance, `device on` after `handlePowerOn`
and `device off` again after a following `handlePowerOff`, as `demoEchoSub` prints. -/
theorem C9_scenario_echoSub (e : EchoSub) (cout : String) :
    (e.announcePowerStatus cout).2
        = cout ++ emitLines ["EchoSub vocalizing: " ++ e.getPowerStatus, ""]
      ∧ (emitLines ["EchoSub vocalizing: " ++ e.getPowerStatus, ""]).data.count (Char.ofNat 10)
          = 2
      ∧ EchoSub.new.getPowerStatus = "device off"
      ∧ EchoSub.new.handlePowerOn.getPowerStatus = "device on"
      ∧ EchoSub.new.handlePowerOn.handlePowerOff.getPowerStatus = "device off"
      ∧ demoEchoSub "" = emitLines
          ["--- Echo Dot ---",
           "Echo Sub instantiated",
           "EchoSub vocalizing: device off",
           "",
           "Echo Sub turned on",
           "EchoSub vocalizing: device on",
           "",
           "Echo Sub turned off",
           "EchoSub vocalizing: device off",
           ""] := by
  refine ⟨?_, ?_, by decide, by decide, by decide, by decide⟩
  · simp only [EchoSub.announcePowerStatus, EchoSub.vocalizePowerStatus, emitLines, String.join,
      List.map_cons, List.map_nil, List.foldl_cons, List.foldl_nil, String.append_assoc,
      String.empty_append]
  · unfold EchoSub.getPowerStatus Device.getPowerStatus
    cases e.power <;> decide

/-! ## The rounding of the percentage -/

set_option maxRecDepth 20000 in
theorem percent_examples (cv : IntConv) :
    (BatteryDevice.new.handleUpdateCharge (F32.neg (F32.lit 875 1000))).getPowerStatus cv
        = "device off, battery life at 13%"
      ∧ (BatteryDevice.new.handleUpdateCharge (F32.neg (F32.lit 1125 1000))).getPowerStatus cv
        = "device off, battery life at -13%" :=
  ⟨(getPowerStatus_eq_x86 cv _ (by decide)).trans (by decide),
   (getPowerStatus_eq_x86 cv _ (by decide)).trans (by decide)⟩

set_option maxRecDepth 20000 in
/-- C10 (as amended). Whenever the conversion `(int) round(charge * 100)` is defined, the
percentage shown by `BatteryDevice::getPowerStatus` is the integer nearest to the
single-precision product `charge * 100`, exact halves rounded away from zero, so the shown p
satisfies |p - charge*100| <= 1/2 for that product.  From a new device
`handleUpdateCharge(-0.875f)` gives the charge `0.125f` and the text shows `13%`, and
`handleUpdateCharge(-1.125f)` gives the charge `-0.125f` and the text shows `-13%`. -/
theorem C10_percentage_rounding (cv : IntConv) (d : BatteryDevice)
    (h : F32.IntDefined (F32.roundf (F32.mul d.charge (F32.ofInt 100)))) :
    d.getPowerStatus cv = specStatusText d.power d.charging (d.percent cv)
      ∧ d.percent cv = roundHalfAway (F32.mul d.charge (F32.ofInt 100)).toRat
      ∧ |((d.percent cv : Int) : ℚ) - (F32.mul d.charge (F32.ofInt 100)).toRat| ≤ 1 / 2
      ∧ (BatteryDevice.new.handleUpdateCharge (F32.neg (F32.lit 875 1000))).charge
          = F32.lit 125 1000
      ∧ (BatteryDevice.new.handleUpdateCharge (F32.neg (F32.lit 875 1000))).getPowerStatus cv
          = "device off, battery life at 13%"
      ∧ (BatteryDevice.new.handleUpdateCharge (F32.neg (F32.lit 1125 1000))).charge
          = F32.neg (F32.lit 125 1000)
      ∧ (BatteryDevice.new.handleUpdateCharge (F32.neg (F32.lit 1125 1000))).getPowerStatus cv
          = "device off, battery life at -13%" := by
  have hp : d.percent cv = roundHalfAway (F32.mul d.charge (F32.ofInt 100)).toRat :=
    percent_of_intDefined cv d h
  refine ⟨getPowerStatus_eq cv d, hp, ?_, by decide, (percent_examples cv).1, by decide,
    (percent_examples cv).2⟩
  rw [hp]
  exact abs_roundHalfAway_sub_le _

set_option maxRecDepth 20000 in
/-- C10, witness: the charge `0.125f` reached from a new device by
`handleUpdateCharge(-0.875f)`, under the x86 conversion. -/
theorem C10_percentage_rounding_witness :
    F32.IntDefined (F32.roundf (F32.mul
        (BatteryDevice.new.handleUpdateCharge (F32.neg (F32.lit 875 1000))).charge
        (F32.ofInt 100)))
      ∧ (BatteryDevice.new.handleUpdateCharge (F32.neg (F32.lit 875 1000))).percent x86
          = roundHalfAway (F32.mul
              (BatteryDevice.new.handleUpdateCharge (F32.neg (F32.lit 875 1000))).charge
              (F32.ofInt 100)).toRat
      ∧ |(((BatteryDevice.new.handleUpdateCharge (F32.neg (F32.lit 875 1000))).percent x86 : Int)
            : ℚ)
          - (F32.mul (BatteryDevice.new.handleUpdateCharge (F32.neg (F32.lit 875 1000))).charge
              (F32.ofInt 100)).toRat| ≤ 1 / 2 :=
  ⟨by decide,
   (C10_percentage_rounding x86
      (BatteryDevice.new.handleUpdateCharge (F32.neg (F32.lit 875 1000))) (by decide)).2.1,
   (C10_percentage_rounding x86
      (BatteryDevice.new.handleUpdateCharge (F32.neg (F32.lit 875 1000))) (by decide)).2.2.1⟩

set_option maxRecDepth 20000 in
/-- C10, counterexample: after `handleUpdateCharge(50000000.0f)` on a new battery device the
charge is `50000000.0f` and `charge * 100` is exactly `5000000000`; the shown percentage is an
`int`, at most `2147483647` under every implementation (`-2147483648` on x86), so it is
further than 1/2 from `charge * 100`.  Within the range of `int`, the charge `0.005f` lies
below 0.005: the single-precision product `charge * 100` is `0.5` and the text shows `1%`,
while the exact product is below 1/2. -/
theorem C10_counterexample :
    (BatteryDevice.new.handleUpdateCharge (F32.lit 50000000 1)).charge = F32.lit 50000000 1
      ∧ (F32.lit 50000000 1).toRat = 50000000
      ∧ (F32.mul (F32.lit 50000000 1) (F32.ofInt 100)).toRat = 5000000000
      ∧ (BatteryDevice.new.handleUpdateCharge (F32.lit 50000000 1)).getPowerStatus x86
          = "device off, battery life at -2147483648%"
      ∧ (∀ cv : IntConv,
          ¬ |(((BatteryDevice.new.handleUpdateCharge (F32.lit 50000000 1)).percent cv : Int) : ℚ)
              - (F32.mul (BatteryDevice.new.handleUpdateCharge (F32.lit 50000000 1)).charge
                  (F32.ofInt 100)).toRat| ≤ 1 / 2)
      ∧ (∀ cv : IntConv,
          ({ power := false, charging := false, charge := F32.lit 5 1000 }
            : BatteryDevice).getPowerStatus cv = "device off, battery life at 1%")
      ∧ (F32.mul (F32.lit 5 1000) (F32.ofInt 100)).toRat = 1 / 2
      ∧ (F32.lit 5 1000).toRat * 100 < 1 / 2 := by
  have hc : (BatteryDevice.new.handleUpdateCharge (F32.lit 50000000 1)).charge
      = F32.lit 50000000 1 := by decide
  have hv : (F32.mul (F32.lit 50000000 1) (F32.ofInt 100)).toRat = 5000000000 := by
    rw [toRat_of_units _ 5000000000 (by decide) (by decide) (by decide)]
    norm_num
  have hv0 : (F32.lit 50000000 1).toRat = 50000000 := by
    rw [toRat_of_units _ 50000000 (by decide) (by decide) (by decide)]
    norm_num
  have hu5 : (F32.lit 5 1000).units = 10737418 * 2 ^ 118 := by decide
  have hu50 : (F32.mul (F32.lit 5 1000) (F32.ofInt 100)).units = 2 ^ 148 := by decide
  have hx : (F32.lit 5 1000).toRat * 100 < 1 / 2 := by
    have hs5 : (F32.lit 5 1000).sign = false := by decide
    rw [toRat_eq _ (by decide), hu5, hs5]
    norm_num
  have hy : (F32.mul (F32.lit 5 1000) (F32.ofInt 100)).toRat = 1 / 2 := by
    rw [toRat_eq _ (by decide), hu50]
    have hs : (F32.mul (F32.lit 5 1000) (F32.ofInt 100)).sign = false := by decide
    rw [hs]
    norm_num
  refine ⟨hc, hv0, hv, by decide, fun cv habs => ?_,
    fun cv => (getPowerStatus_eq_x86 cv _ (by decide)).trans (by decide), hy, hx⟩
  rw [hc, hv, abs_le] at habs
  have hle := toInt_le_INT_MAX cv
    (F32.roundf (F32.mul (BatteryDevice.new.handleUpdateCharge (F32.lit 50000000 1)).charge
      (F32.ofInt 100)))
  have hq : (((BatteryDevice.new.handleUpdateCharge (F32.lit 50000000 1)).percent cv : Int) : ℚ)
      ≤ 2147483647 := by
    have : (BatteryDevice.new.handleUpdateCharge (F32.lit 50000000 1)).percent cv
        ≤ 2147483647 := hle
    exact_mod_cast this
  linarith [habs.1]

/-! ## Exact sums -/

theorem bitLen_two_pow (k : Nat) : bitLen (2 ^ k) = k + 1 := by
  have h1 := lt_two_pow_bitLen (2 ^ k)
  have h2 := two_pow_bitLen_le (2 ^ k) (by positivity)
  have a : k < bitLen (2 ^ k) := (Nat.pow_lt_pow_iff_right (by decide)).1 h1
  have b : bitLen (2 ^ k) ≤ k + 1 := by
    have : 2 ^ bitLen (2 ^ k) ≤ 2 ^ (k + 1) := by rw [pow_succ]; omega
    exact (Nat.pow_le_pow_iff_right (by decide)).1 this
  omega

theorem floorLog2_two_pow (n k : Nat) (hn : 0 < n) :
    F32.floorLog2 n (2 ^ k) = (bitLen n : Int) - ((k : Int) + 1) := by
  have hle := two_pow_bitLen_le n hn
  unfold F32.floorLog2
  rw [bitLen_two_pow]
  have hcast : (((k + 1 : Nat)) : Int) = (k : Int) + 1 := by push_cast; rfl
  rw [hcast]
  rw [if_pos]
  by_cases hL : k + 1 ≤ bitLen n
  · have e1 : ((bitLen n : Int) - ((k : Int) + 1)).toNat = bitLen n - (k + 1) := by omega
    have e2 : (-((bitLen n : Int) - ((k : Int) + 1))).toNat = 0 := by omega
    rw [e1, e2, pow_zero, Nat.mul_one, ← pow_add]
    have e3 : 2 ^ (k + (bitLen n - (k + 1)) + 1) = 2 ^ bitLen n := by
      congr 1; omega
    rw [pow_succ] at e3
    omega
  · have e1 : ((bitLen n : Int) - ((k : Int) + 1)).toNat = 0 := by omega
    have e2 : (-((bitLen n : Int) - ((k : Int) + 1))).toNat = k + 1 - bitLen n := by omega
    rw [e1, e2, pow_zero, Nat.mul_one]
    have e3 : 2 ^ bitLen n * 2 ^ (k + 1 - bitLen n) = 2 ^ (k + 1) := by
      rw [← pow_add]; congr 1; omega
    have e4 : 2 ^ bitLen n * 2 ^ (k + 1 - bitLen n) ≤ 2 * n * 2 ^ (k + 1 - bitLen n) :=
      Nat.mul_le_mul_right _ hle
    rw [e3, pow_succ, Nat.mul_assoc] at e4
    omega

theorem roundNE_of_exact (s : Bool) (num den m : Nat) (qe : Int) (hnum : num ≠ 0)
    (hden : 0 < den) (hqe : max (F32.floorLog2 num den - 23) (-149) = qe)
    (hm : num * 2 ^ (-qe).toNat = m * (den * 2 ^ qe.toNat)) (hm24 : m < 16777216) :
    F32.roundNE s num den = F32.pack s m qe := by
  unfold F32.roundNE
  rw [if_neg hnum]
  simp only [hqe]
  have hb : 0 < den * 2 ^ qe.toNat := Nat.mul_pos hden (by positivity)
  rw [hm, Nat.mul_div_cancel _ hb, Nat.mul_mod_left]
  simp only [Nat.mul_zero, hb, if_true]
  rw [if_neg (by omega)]

theorem pack_units (s : Bool) (m : Nat) (qe : Int) (hm : m < 16777216) (hlo : -149 ≤ qe)
    (hhi : qe ≤ 104) (hsub : m < 8388608 → qe = -149) :
    (F32.pack s m qe).sign = s ∧ (F32.pack s m qe).exp.val ≠ 255
      ∧ (F32.pack s m qe).units = m * 2 ^ (qe + 149).toNat := by
  by_cases h : m < 8388608
  · have hq := hsub h
    subst hq
    unfold F32.pack
    rw [dif_pos h]
    refine ⟨rfl, by simp, ?_⟩
    simp [F32.units, F32.sig, F32.sexp]
  · obtain ⟨p1, p2, p3⟩ := pack_normal s m qe (by omega) hm hlo hhi
    refine ⟨p1, by omega, ?_⟩
    unfold F32.units F32.sig F32.sexp
    rw [p2, p3, if_neg (by omega), if_neg (by omega)]
    have e1 : 8388608 + (m - 8388608) = m := by omega
    have e2 : (qe + 150).toNat - 1 = (qe + 149).toNat := by omega
    rw [e1, e2]

theorem roundNE_representable (s : Bool) (n : Nat) (hn : 0 < n) (hrep : F32.Representable n) :
    (F32.roundNE s n (2 ^ 149)).sign = s ∧ (F32.roundNE s n (2 ^ 149)).exp.val ≠ 255
      ∧ (F32.roundNE s n (2 ^ 149)).units = n := by
  have hpos := bitLen_pos n hn
  have hle := two_pow_bitLen_le n hn
  have hlt := lt_two_pow_bitLen n
  have hfl := floorLog2_two_pow n 149 hn
  by_cases h24 : n < 16777216
  · have hL : bitLen n ≤ 24 := bitLen_le_of_lt n 24 (by norm_num; exact h24) hn
    have hqe : max (F32.floorLog2 n (2 ^ 149) - 23) (-149) = -149 := by
      rw [hfl]; push_cast; omega
    have e1 : (-(-149 : Int)).toNat = 149 := by decide
    have e2 : (-149 : Int).toNat = 0 := by decide
    rw [roundNE_of_exact s n (2 ^ 149) n (-149) (by omega) (by positivity) hqe
      (by rw [e1, e2, pow_zero, Nat.mul_one]) h24]
    obtain ⟨p1, p2, p3⟩ := pack_units s n (-149) h24 (by decide) (by decide) (fun _ => rfl)
    refine ⟨p1, p2, ?_⟩
    rw [p3]
    simp
  · obtain ⟨hL277, hdiv⟩ : bitLen n ≤ 277 ∧ n % 2 ^ (bitLen n - 24) = 0 := by
      rcases hrep with h | h
      · exact absurd h h24
      · exact h
    have hL25 : 25 ≤ bitLen n := by
      by_contra hc
      have : 2 ^ bitLen n ≤ 2 ^ 24 := Nat.pow_le_pow_right (by decide) (by omega)
      norm_num at this
      omega
    obtain ⟨j, hj⟩ : ∃ j, bitLen n = j + 24 := ⟨bitLen n - 24, by omega⟩
    rw [hj] at hle hlt hfl hdiv hL277
    rw [Nat.add_sub_cancel] at hdiv
    obtain ⟨m, hm⟩ : ∃ m, n = m * 2 ^ j := ⟨n / 2 ^ j, by
      have := Nat.div_add_mod n (2 ^ j)
      rw [hdiv, Nat.add_zero, Nat.mul_comm] at this
      exact this.symm⟩
    have hpj : 0 < 2 ^ j := by positivity
    have hsplit : 2 ^ (j + 24) = 16777216 * 2 ^ j := by rw [pow_add]; norm_num; ring
    have hm24 : m < 16777216 := by
      rw [hsplit, hm] at hlt
      exact Nat.lt_of_mul_lt_mul_right hlt
    have hm23 : 8388608 ≤ m := by
      rw [hsplit, hm] at hle
      have : 16777216 * 2 ^ j ≤ (2 * m) * 2 ^ j := by
        rw [Nat.mul_assoc]; exact hle
      have := Nat.le_of_mul_le_mul_right this hpj
      omega
    have hqe : max (F32.floorLog2 n (2 ^ 149) - 23) (-149) = (j : Int) - 149 := by
      rw [hfl]; push_cast; omega
    have hscale : n * 2 ^ (-((j : Int) - 149)).toNat
        = m * (2 ^ 149 * 2 ^ ((j : Int) - 149).toNat) := by
      have e : j + (-((j : Int) - 149)).toNat = 149 + ((j : Int) - 149).toNat := by omega
      rw [hm, Nat.mul_assoc, ← pow_add, ← pow_add, e]
    rw [roundNE_of_exact s n (2 ^ 149) m ((j : Int) - 149) (by omega) (by positivity) hqe
      hscale hm24]
    obtain ⟨p1, p2, p3⟩ := pack_units s m ((j : Int) - 149) hm24 (by omega) (by omega)
      (fun h => by omega)
    refine ⟨p1, p2, ?_⟩
    have e : ((j : Int) - 149 + 149).toNat = j := by omega
    rw [p3, hm, e]

theorem toRat_eq_signedUnits (x : F32) (hfin : x.exp.val ≠ 255) :
    x.toRat = (x.signedUnits : ℚ) / 2 ^ 149 := by
  rw [toRat_eq x hfin]
  unfold F32.signedUnits
  cases x.sign
  · simp
  · simp only [if_true, Int.cast_neg, Int.cast_natCast]
    ring

theorem add_signedUnits (x y : F32) (hx : x.exp.val ≠ 255) (hy : y.exp.val ≠ 255)
    (hrep : F32.Representable (x.signedUnits + y.signedUnits).natAbs) :
    (F32.add x y).exp.val ≠ 255
      ∧ (F32.add x y).signedUnits = x.signedUnits + y.signedUnits := by
  have nx : x.isNaN = false := by simp [F32.isNaN, hx]
  have ny : y.isNaN = false := by simp [F32.isNaN, hy]
  have ix : x.isInf = false := by simp [F32.isInf, hx]
  have iy : y.isInf = false := by simp [F32.isInf, hy]
  unfold F32.add
  simp only [nx, ny, ix, iy, Bool.or_self, Bool.false_eq_true, if_false]
  change (if x.signedUnits + y.signedUnits = 0 then F32.zero (x.sign && y.sign)
      else F32.roundNE (decide (x.signedUnits + y.signedUnits < 0))
        (x.signedUnits + y.signedUnits).natAbs (2 ^ 149)).exp.val ≠ 255
    ∧ (if x.signedUnits + y.signedUnits = 0 then F32.zero (x.sign && y.sign)
      else F32.roundNE (decide (x.signedUnits + y.signedUnits < 0))
        (x.signedUnits + y.signedUnits).natAbs (2 ^ 149)).signedUnits
      = x.signedUnits + y.signedUnits
  generalize x.signedUnits + y.signedUnits = t at hrep ⊢
  by_cases ht : t = 0
  · rw [if_pos ht, ht]
    refine ⟨by simp [F32.zero], ?_⟩
    cases (x.sign && y.sign) <;> simp [F32.zero, F32.signedUnits, F32.units, F32.sig]
  · rw [if_neg ht]
    obtain ⟨p1, p2, p3⟩ := roundNE_representable (decide (t < 0)) t.natAbs (by omega) hrep
    refine ⟨p2, ?_⟩
    unfold F32.signedUnits
    rw [p1, p3]
    by_cases hneg : t < 0
    · simp only [hneg, decide_True, if_true]
      omega
    · simp only [hneg, decide_False, Bool.false_eq_true, if_false]
      omega

theorem add_exact (x y : F32) (hx : x.exp.val ≠ 255) (hy : y.exp.val ≠ 255)
    (hrep : F32.Representable (x.signedUnits + y.signedUnits).natAbs) :
    (F32.add x y).exp.val ≠ 255 ∧ (F32.add x y).toRat = x.toRat + y.toRat := by
  obtain ⟨h1, h2⟩ := add_signedUnits x y hx hy hrep
  refine ⟨h1, ?_⟩
  rw [toRat_eq_signedUnits _ h1, toRat_eq_signedUnits x hx, toRat_eq_signedUnits y hy, h2]
  push_cast
  ring

/-! ## Charge updates -/

set_option maxRecDepth 20000 in
theorem charge_update_texts (cv : IntConv) :
    (Kindle.new.handleUpdateCharge (F32.lit 5 10)).toBatteryDevice.getPowerStatus cv
        = "device off, battery life at 150%"
      ∧ (Kindle.new.handleUpdateCharge (F32.neg (F32.lit 15 10))).toBatteryDevice.getPowerStatus cv
        = "device off, battery life at -50%" :=
  ⟨(getPowerStatus_eq_x86 cv _ (by decide)).trans (by decide),
   (getPowerStatus_eq_x86 cv _ (by decide)).trans (by decide)⟩

set_option maxRecDepth 20000 in
theorem charge_update_values :
    (Kindle.new.handleUpdateCharge (F32.lit 5 10)).charge.toRat = 3 / 2
      ∧ (Kindle.new.handleUpdateCharge (F32.neg (F32.lit 15 10))).charge.toRat = -(1 / 2) := by
  have h1 : (Kindle.new.handleUpdateCharge (F32.lit 5 10)).charge = ⟨false, 127, 4194304⟩ := by
    decide
  have h2 : (Kindle.new.handleUpdateCharge (F32.neg (F32.lit 15 10))).charge
      = ⟨true, 126, 0⟩ := by decide
  have u1 : (⟨false, 127, 4194304⟩ : F32).units = 3 * 2 ^ 148 := by decide
  have u2 : (⟨true, 126, 0⟩ : F32).units = 2 ^ 148 := by decide
  constructor
  · rw [h1, toRat_eq _ (by decide), u1]
    norm_num
  · rw [h2, toRat_eq _ (by decide), u2]
    norm_num

/-- C11. `handleUpdateCharge` is unchecked: for every state and every delta it returns a state
whose charge is the single-precision sum `charge + increase`, whatever its value (no clamping
to [0,1], no failure), with `power` and `charging` unchanged; when both are finite and their
exact sum is a float, the new charge is exactly that sum.  Out-of-range percentages are
reachable: from a new `Kindle`, `handleUpdateCharge(0.5f)` gives the charge 3/2 and the text
`device off, battery life at 150%`, and `handleUpdateCharge(-1.5f)` gives the charge -1/2 and
the text `device off, battery life at -50%`, under every implementation. -/
theorem C11_update_charge_unchecked (cv : IntConv) (k : Kindle) (increase : F32) :
    (k.handleUpdateCharge increase).charge = F32.add k.charge increase
      ∧ (k.handleUpdateCharge increase).power = k.power
      ∧ (k.handleUpdateCharge increase).charging = k.charging
      ∧ (k.charge.exp.val ≠ 255 ∧ increase.exp.val ≠ 255
          ∧ F32.Representable (k.charge.signedUnits + increase.signedUnits).natAbs
        → (k.handleUpdateCharge increase).charge.toRat = k.charge.toRat + increase.toRat)
      ∧ (Kindle.new.handleUpdateCharge (F32.lit 5 10)).charge.toRat = 3 / 2
      ∧ (Kindle.new.handleUpdateCharge (F32.lit 5 10)).toBatteryDevice.getPowerStatus cv
          = "device off, battery life at 150%"
      ∧ (Kindle.new.handleUpdateCharge (F32.neg (F32.lit 15 10))).charge.toRat = -(1 / 2)
      ∧ (Kindle.new.handleUpdateCharge (F32.neg (F32.lit 15 10))).toBatteryDevice.getPowerStatus cv
          = "device off, battery life at -50%" :=
  ⟨rfl, rfl, rfl, fun h => (add_exact k.charge increase h.1 h.2.1 h.2.2).2,
    charge_update_values.1, (charge_update_texts cv).1, charge_update_values.2,
    (charge_update_texts cv).2⟩

/-! ## Idempotence -/

/-- C12. Idempotence: for every device state (a `Device`, a `BatteryDevice`, an `EchoSub`, a
`FireTV`, a `Kindle`), calling `handlePowerOn` twice in a row yields the same state as calling
it once; likewise `handlePowerOff`, and on the battery devices `handlePlug` and
`handleUnplug`. -/
theorem C12_idempotence (d : Device) (b : BatteryDevice) (e : EchoSub) (t : FireTV)
    (k : Kindle) :
    (d.handlePowerOn.handlePowerOn = d.handlePowerOn
        ∧ d.handlePowerOff.handlePowerOff = d.handlePowerOff)
      ∧ (b.handlePowerOn.handlePowerOn = b.handlePowerOn
        ∧ b.handlePowerOff.handlePowerOff = b.handlePowerOff
        ∧ b.handlePlug.handlePlug = b.handlePlug
        ∧ b.handleUnplug.handleUnplug = b.handleUnplug)
      ∧ (e.handlePowerOn.handlePowerOn = e.handlePowerOn
        ∧ e.handlePowerOff.handlePowerOff = e.handlePowerOff)
      ∧ (t.handlePowerOn.handlePowerOn = t.handlePowerOn
        ∧ t.handlePowerOff.handlePowerOff = t.handlePowerOff)
      ∧ (k.handlePowerOn.handlePowerOn = k.handlePowerOn
        ∧ k.handlePowerOff.handlePowerOff = k.handlePowerOff
        ∧ k.handlePlug.handlePlug = k.handlePlug
        ∧ k.handleUnplug.handleUnplug = k.handleUnplug) :=
  ⟨⟨rfl, rfl⟩, ⟨rfl, rfl, rfl, rfl⟩, ⟨rfl, rfl⟩, ⟨rfl, rfl⟩, ⟨rfl, rfl, rfl, rfl⟩⟩

/-! ## Announcements leave the state as it is -/

/-- C13. For each of the three variants and every state, `announcePowerStatus`,
`vocalizePowerStatus` and `renderPowerStatus` return the device state (power, charging,
charge) unchanged, so the channel lines of one announcement are computed from the same state,
and announcing twice in a row appends the same lines twice. -/
theorem C13_announce_keeps_state (cv : IntConv) (e : EchoSub) (t : FireTV) (k : Kindle)
    (cout : String) :
    ((e.vocalizePowerStatus cout).1 = e ∧ (e.announcePowerStatus cout).1 = e)
      ∧ ((t.vocalizePowerStatus cout).1 = t ∧ (t.renderPowerStatus cout).1 = t
        ∧ (t.announcePowerStatus cout).1 = t)
      ∧ ((k.vocalizePowerStatus cv cout).1 = k ∧ (k.renderPowerStatus cv cout).1 = k
        ∧ (k.announcePowerStatus cv cout).1 = k)
      ∧ ((e.announcePowerStatus cout).1.announcePowerStatus (e.announcePowerStatus cout).2).2
          = cout ++ emitLines ["EchoSub vocalizing: " ++ e.getPowerStatus, ""]
              ++ emitLines ["EchoSub vocalizing: " ++ e.getPowerStatus, ""]
      ∧ ((t.announcePowerStatus cout).1.announcePowerStatus (t.announcePowerStatus cout).2).2
          = cout ++ emitLines ["FireTV vocalizing: " ++ t.getPowerStatus,
                "FireTV rendering: " ++ t.getPowerStatus, ""]
              ++ emitLines ["FireTV vocalizing: " ++ t.getPowerStatus,
                "FireTV rendering: " ++ t.getPowerStatus, ""]
      ∧ ((k.announcePowerStatus cv cout).1.announcePowerStatus cv
            (k.announcePowerStatus cv cout).2).2
          = cout ++ emitLines ["Kindle vocalizing: " ++ k.toBatteryDevice.getPowerStatus cv,
                "Kindle rendering: " ++ k.toBatteryDevice.getPowerStatus cv, ""]
              ++ emitLines ["Kindle vocalizing: " ++ k.toBatteryDevice.getPowerStatus cv,
                "Kindle rendering: " ++ k.toBatteryDevice.getPowerStatus cv, ""] := by
  refine ⟨⟨rfl, rfl⟩, ⟨rfl, rfl, rfl⟩, ⟨rfl, rfl, rfl⟩, ?_, ?_, ?_⟩
  · simp only [EchoSub.announcePowerStatus, EchoSub.vocalizePowerStatus, emitLines, String.join,
      List.map_cons, List.map_nil, List.foldl_cons, List.foldl_nil, String.append_assoc,
      String.empty_append]
  · simp only [FireTV.announcePowerStatus, FireTV.vocalizePowerStatus, FireTV.renderPowerStatus,
      emitLines, String.join, List.map_cons, List.map_nil, List.foldl_cons, List.foldl_nil,
      String.append_assoc, String.empty_append]
  · simp only [Kindle.announcePowerStatus, Kindle.vocalizePowerStatus, Kindle.renderPowerStatus,
      emitLines, String.join, List.map_cons, List.map_nil, List.foldl_cons, List.foldl_nil,
      String.append_assoc, String.empty_append]

/-! ## Call sequences on a Kindle -/

theorem kindle_foldl_state (cs : List KindleCall) (k : Kindle) :
    (cs.foldl Kindle.call k).power = ((cs.filterMap KindleCall.powerFlag).getLast?).getD k.power
      ∧ (cs.foldl Kindle.call k).charging
          = ((cs.filterMap KindleCall.plugFlag).getLast?).getD k.charging
      ∧ (cs.foldl Kindle.call k).charge
          = (cs.filterMap KindleCall.delta).foldl F32.add k.charge := by
  induction cs using List.reverseRecOn with
  | nil => exact ⟨rfl, rfl, rfl⟩
  | append_singleton l c ih =>
    obtain ⟨h1, h2, h3⟩ := ih
    rw [List.foldl_append, List.filterMap_append, List.filterMap_append, List.filterMap_append,
      List.foldl_append]
    cases c <;>
      simp [KindleCall.powerFlag, KindleCall.plugFlag, KindleCall.delta, Kindle.call,
        Kindle.handlePowerOn, Kindle.handlePowerOff, Kindle.handlePlug, Kindle.handleUnplug,
        Kindle.handleUpdateCharge, BatteryDevice.handlePowerOn, BatteryDevice.handlePowerOff,
        BatteryDevice.handlePlug, BatteryDevice.handleUnplug, BatteryDevice.handleUpdateCharge,
        Device.handlePowerOn, Device.handlePowerOff, h1, h2, h3]

set_option maxRecDepth 20000 in
theorem specPercent_seventy_million : specPercent (F32.lit 70000000 1) = 7000000000 := by
  unfold specPercent
  rw [roundHalfAway_toRat _ (by decide)]
  decide

/-- C14 (as amended). A `Kindle` has one shared power flag: for every finite sequence of
`handlePowerOn`, `handlePowerOff`, `handlePlug`, `handleUnplug` and `handleUpdateCharge(d)`
calls applied to a new `Kindle`, the resulting state has `power` true iff the last power call
is `handlePowerOn` (false if there is none), `charging` true iff the last plug call is
`handlePlug` (false if there is none), and as `charge` the single-precision sum of `1.0f` and
the deltas, added in call order.  The status text is (`device off, ` when that power is false)
++ `battery life at ` ++ decimal(p) ++ `%` ++ (`, and charging` when that charging is true),
where p is the `int` that `(int) round(charge * 100)` yields for that charge; whenever this
conversion is defined, p is round(charge*100), halves away from zero.  Two sequences with the
same power calls, the same plug calls and the same deltas give the same state, however the
three kinds of call are interleaved. -/
theorem C14_kindle_call_sequence (cv : IntConv) (cs cs2 : List KindleCall) :
    ((cs.foldl Kindle.call Kindle.new).power = true
        ↔ (cs.filterMap KindleCall.powerFlag).getLast? = some true)
      ∧ ((cs.foldl Kindle.call Kindle.new).charging = true
        ↔ (cs.filterMap KindleCall.plugFlag).getLast? = some true)
      ∧ (cs.foldl Kindle.call Kindle.new).charge
          = (cs.filterMap KindleCall.delta).foldl F32.add (F32.lit 1 1)
      ∧ (cs.foldl Kindle.call Kindle.new).toBatteryDevice.getPowerStatus cv
          = specStatusText (((cs.filterMap KindleCall.powerFlag).getLast?).getD false)
              (((cs.filterMap KindleCall.plugFlag).getLast?).getD false)
              (F32.toInt cv (F32.roundf (F32.mul
                ((cs.filterMap KindleCall.delta).foldl F32.add (F32.lit 1 1)) (F32.ofInt 100))))
      ∧ (F32.IntDefined (F32.roundf (F32.mul
            ((cs.filterMap KindleCall.delta).foldl F32.add (F32.lit 1 1)) (F32.ofInt 100)))
        → (cs.foldl Kindle.call Kindle.new).toBatteryDevice.getPowerStatus cv
            = specStatusText (((cs.filterMap KindleCall.powerFlag).getLast?).getD false)
                (((cs.filterMap KindleCall.plugFlag).getLast?).getD false)
                (specPercent ((cs.filterMap KindleCall.delta).foldl F32.add (F32.lit 1 1))))
      ∧ (cs.filterMap KindleCall.powerFlag = cs2.filterMap KindleCall.powerFlag
          ∧ cs.filterMap KindleCall.plugFlag = cs2.filterMap KindleCall.plugFlag
          ∧ cs.filterMap KindleCall.delta = cs2.filterMap KindleCall.delta
        → cs.foldl Kindle.call Kindle.new = cs2.foldl Kindle.call Kindle.new) := by
  obtain ⟨h1, h2, h3⟩ := kindle_foldl_state cs Kindle.new
  obtain ⟨g1, g2, g3⟩ := kindle_foldl_state cs2 Kindle.new
  have hst : ∀ k : Kindle, k = { power := k.power, charging := k.charging, charge := k.charge } :=
    fun k => rfl
  have htext : (cs.foldl Kindle.call Kindle.new).toBatteryDevice.getPowerStatus cv
      = specStatusText (((cs.filterMap KindleCall.powerFlag).getLast?).getD false)
          (((cs.filterMap KindleCall.plugFlag).getLast?).getD false)
          (F32.toInt cv (F32.roundf (F32.mul
            ((cs.filterMap KindleCall.delta).foldl F32.add (F32.lit 1 1)) (F32.ofInt 100)))) := by
    rw [getPowerStatus_eq]
    unfold BatteryDevice.percent
    rw [h1, h2, h3]
    rfl
  refine ⟨?_, ?_, h3, htext, ?_, ?_⟩
  · rw [h1]
    cases (cs.filterMap KindleCall.powerFlag).getLast? <;> simp [Kindle.new, BatteryDevice.new,
      Device.new]
  · rw [h2]
    cases (cs.filterMap KindleCall.plugFlag).getLast? <;> simp [Kindle.new, BatteryDevice.new]
  · intro hdef
    rw [htext]
    unfold specPercent
    rw [toInt_roundf cv _ hdef]
  · rintro ⟨e1, e2, e3⟩
    rw [hst (cs.foldl Kindle.call Kindle.new), hst (cs2.foldl Kindle.call Kindle.new), h1, h2, h3,
      g1, g2, g3, e1, e2, e3]

set_option maxRecDepth 20000 in
/-- C14, witness: the calls of `demoKindle` (plug, unplug, update by `-.01f`, power on, plug)
and a second order of the same calls (power on first); the conversion is defined, the text is
the battery format with the rounded percentage, and both orders give the same state. -/
theorem C14_kindle_call_sequence_witness :
    F32.IntDefined (F32.roundf (F32.mul
        (([KindleCall.handlePlug, KindleCall.handleUnplug,
            KindleCall.handleUpdateCharge (F32.neg (F32.lit 1 100)), KindleCall.handlePowerOn,
            KindleCall.handlePlug].filterMap KindleCall.delta).foldl F32.add (F32.lit 1 1))
        (F32.ofInt 100)))
      ∧ ([KindleCall.handlePlug, KindleCall.handleUnplug,
            KindleCall.handleUpdateCharge (F32.neg (F32.lit 1 100)), KindleCall.handlePowerOn,
            KindleCall.handlePlug].foldl Kindle.call Kindle.new).toBatteryDevice.getPowerStatus x86
          = specStatusText
              ((([KindleCall.handlePlug, KindleCall.handleUnplug,
                KindleCall.handleUpdateCharge (F32.neg (F32.lit 1 100)),
                KindleCall.handlePowerOn,
                KindleCall.handlePlug].filterMap KindleCall.powerFlag).getLast?).getD false)
              ((([KindleCall.handlePlug, KindleCall.handleUnplug,
                KindleCall.handleUpdateCharge (F32.neg (F32.lit 1 100)),
                KindleCall.handlePowerOn,
                KindleCall.handlePlug].filterMap KindleCall.plugFlag).getLast?).getD false)
              (specPercent (([KindleCall.handlePlug, KindleCall.handleUnplug,
                KindleCall.handleUpdateCharge (F32.neg (F32.lit 1 100)),
                KindleCall.handlePowerOn,
                KindleCall.handlePlug].filterMap KindleCall.delta).foldl F32.add (F32.lit 1 1)))
      ∧ ([KindleCall.handlePlug, KindleCall.handleUnplug,
            KindleCall.handleUpdateCharge (F32.neg (F32.lit 1 100)), KindleCall.handlePowerOn,
            KindleCall.handlePlug].foldl Kindle.call Kindle.new).toBatteryDevice.getPowerStatus x86
          = "battery life at 99%, and charging"
      ∧ [KindleCall.handlePlug, KindleCall.handleUnplug,
            KindleCall.handleUpdateCharge (F32.neg (F32.lit 1 100)), KindleCall.handlePowerOn,
            KindleCall.handlePlug].foldl Kindle.call Kindle.new
          = [KindleCall.handlePowerOn, KindleCall.handlePlug, KindleCall.handleUnplug,
            KindleCall.handlePlug,
            KindleCall.handleUpdateCharge (F32.neg (F32.lit 1 100))].foldl Kindle.call
              Kindle.new :=
  ⟨by decide,
   (C14_kindle_call_sequence x86
      [KindleCall.handlePlug, KindleCall.handleUnplug,
        KindleCall.handleUpdateCharge (F32.neg (F32.lit 1 100)), KindleCall.handlePowerOn,
        KindleCall.handlePlug]
      [KindleCall.handlePowerOn, KindleCall.handlePlug, KindleCall.handleUnplug,
        KindleCall.handlePlug,
        KindleCall.handleUpdateCharge (F32.neg (F32.lit 1 100))]).2.2.2.2.1 (by decide),
   by decide,
   (C14_kindle_call_sequence x86
      [KindleCall.handlePlug, KindleCall.handleUnplug,
        KindleCall.handleUpdateCharge (F32.neg (F32.lit 1 100)), KindleCall.handlePowerOn,
        KindleCall.handlePlug]
      [KindleCall.handlePowerOn, KindleCall.handlePlug, KindleCall.handleUnplug,
        KindleCall.handlePlug,
        KindleCall.handleUpdateCharge (F32.neg (F32.lit 1 100))]).2.2.2.2.2
      ⟨by decide, by decide, by decide⟩⟩

set_option maxRecDepth 20000 in
/-- C14, counterexample: the calls `handlePowerOn`, `handleUpdateCharge(70000000.0f)`,
`handlePlug` on a new `Kindle` give power true, charging true and the charge `70000000.0f`,
for which round(charge*100) is 7000000000, more than an `int` holds.  The battery format of
that triple is `battery life at 7000000000%, and charging`; the code returns another text
under every implementation, and `battery life at -2147483648%, and charging` with the x86
conversion. -/
theorem C14_counterexample :
    ([KindleCall.handlePowerOn, KindleCall.handleUpdateCharge (F32.lit 70000000 1),
        KindleCall.handlePlug].foldl Kindle.call Kindle.new)
        = { power := true, charging := true, charge := F32.lit 70000000 1 }
      ∧ specStatusText true true (specPercent (F32.lit 70000000 1))
          = "battery life at 7000000000%, and charging"
      ∧ ([KindleCall.handlePowerOn, KindleCall.handleUpdateCharge (F32.lit 70000000 1),
          KindleCall.handlePlug].foldl Kindle.call Kindle.new).toBatteryDevice.getPowerStatus x86
          = "battery life at -2147483648%, and charging"
      ∧ (∀ cv : IntConv,
          ([KindleCall.handlePowerOn, KindleCall.handleUpdateCharge (F32.lit 70000000 1),
            KindleCall.handlePlug].foldl Kindle.call Kindle.new).toBatteryDevice.getPowerStatus cv
            ≠ specStatusText true true (specPercent (F32.lit 70000000 1))) := by
  have hs : ([KindleCall.handlePowerOn, KindleCall.handleUpdateCharge (F32.lit 70000000 1),
        KindleCall.handlePlug].foldl Kindle.call Kindle.new)
      = { power := true, charging := true, charge := F32.lit 70000000 1 } := by decide
  refine ⟨hs, ?_, by decide, fun cv h => ?_⟩
  · rw [specPercent_seventy_million]
    decide
  · rw [hs, getPowerStatus_eq] at h
    have hp := specStatusText_percent_inj true true _ _ h
    rw [specPercent_seventy_million] at hp
    have hle := toInt_le_INT_MAX cv (F32.roundf (F32.mul (F32.lit 70000000 1) (F32.ofInt 100)))
    have hle2 : F32.toInt cv (F32.roundf (F32.mul (F32.lit 70000000 1) (F32.ofInt 100)))
        ≤ 2147483647 := hle
    have hp2 : F32.toInt cv (F32.roundf (F32.mul (F32.lit 70000000 1) (F32.ofInt 100)))
        = 7000000000 := hp
    omega

/-! ## The battery text determines what it shows -/

theorem startsWith_specStatusText_iff (pw ch : Bool) (p : Int) :
    StartsWith (specStatusText pw ch p) "device off, " ↔ pw = false := by
  unfold specStatusText
  cases pw
  · simp only [Bool.false_eq_true, if_false, iff_true, String.append_assoc]
    exact startsWith_append _ _
  · simp only [if_true, String.append_assoc, String.empty_append, Bool.true_eq_false, iff_false]
    exact not_startsWith_battery _

theorem endsWith_specStatusText_iff (pw ch : Bool) (p : Int) :
    EndsWith (specStatusText pw ch p) ", and charging" ↔ ch = true := by
  unfold specStatusText
  cases ch
  · simp only [Bool.false_eq_true, if_false, iff_false, String.append_empty, ← String.append_assoc]
    exact not_endsWith_percent _
  · simp only [if_true, iff_true]
    exact endsWith_append _ _

theorem specStatusText_inj (pw1 ch1 pw2 ch2 : Bool) (p1 p2 : Int)
    (h : specStatusText pw1 ch1 p1 = specStatusText pw2 ch2 p2) :
    pw1 = pw2 ∧ ch1 = ch2 ∧ p1 = p2 := by
  have hpw : pw1 = pw2 := by
    have e1 := startsWith_specStatusText_iff pw1 ch1 p1
    have e2 := startsWith_specStatusText_iff pw2 ch2 p2
    rw [h] at e1
    cases pw1 <;> cases pw2 <;> simp_all
  have hch : ch1 = ch2 := by
    have e1 := endsWith_specStatusText_iff pw1 ch1 p1
    have e2 := endsWith_specStatusText_iff pw2 ch2 p2
    rw [h] at e1
    cases ch1 <;> cases ch2 <;> simp_all
  subst hpw
  subst hch
  exact ⟨rfl, rfl, specStatusText_percent_inj _ _ _ _ h⟩

set_option maxRecDepth 20000 in
theorem specPercent_forty_sixty_million :
    specPercent (F32.lit 40000000 1) = 4000000000
      ∧ specPercent (F32.lit 60000000 1) = 6000000000 := by
  unfold specPercent
  rw [roundHalfAway_toRat _ (by decide), roundHalfAway_toRat _ (by decide)]
  exact ⟨by decide, by decide⟩

/-- C15 (as amended). The battery status text is unambiguous in what it shows: if
`BatteryDevice::getPowerStatus` returns the same string for two states, the two states agree
on `power`, on `charging` and on the shown percentage (negative and above-100 ones included),
and, when the conversion `(int) round(charge * 100)` is defined for both, on the rounded
percentage round(charge*100); and no battery status text equals a text of
`Device::getPowerStatus`, `device on` or `device off`. -/
theorem C15_status_text_unambiguous (cv : IntConv) (d1 d2 : BatteryDevice) (d : Device)
    (h : d1.getPowerStatus cv = d2.getPowerStatus cv) :
    d1.power = d2.power ∧ d1.charging = d2.charging ∧ d1.percent cv = d2.percent cv
      ∧ (F32.IntDefined (F32.roundf (F32.mul d1.charge (F32.ofInt 100)))
          ∧ F32.IntDefined (F32.roundf (F32.mul d2.charge (F32.ofInt 100)))
        → specPercent d1.charge = specPercent d2.charge)
      ∧ d1.getPowerStatus cv ≠ d.getPowerStatus
      ∧ d1.getPowerStatus cv ≠ "device on"
      ∧ d1.getPowerStatus cv ≠ "device off" := by
  have h' := h
  rw [getPowerStatus_eq, getPowerStatus_eq] at h'
  obtain ⟨hp, hc, hn⟩ := specStatusText_inj _ _ _ _ _ _ h'
  refine ⟨hp, hc, hn, ?_, battery_status_ne_device_status cv d1 d,
    battery_status_ne_device_status cv d1 ⟨true⟩, battery_status_ne_device_status cv d1 ⟨false⟩⟩
  rintro ⟨i1, i2⟩
  rw [← percent_of_intDefined cv d1 i1, ← percent_of_intDefined cv d2 i2]
  exact hn

set_option maxRecDepth 20000 in
/-- C15, witness: a new battery device (charge `1.0f`) and the same device after
`handleUpdateCharge(.001f)`, two states of different charge that both show
`device off, battery life at 100%`. -/
theorem C15_status_text_unambiguous_witness :
    BatteryDevice.new.getPowerStatus x86
        = (BatteryDevice.new.handleUpdateCharge (F32.lit 1 1000)).getPowerStatus x86
      ∧ BatteryDevice.new.charge ≠ (BatteryDevice.new.handleUpdateCharge (F32.lit 1 1000)).charge
      ∧ BatteryDevice.new.power = (BatteryDevice.new.handleUpdateCharge (F32.lit 1 1000)).power
      ∧ BatteryDevice.new.charging
          = (BatteryDevice.new.handleUpdateCharge (F32.lit 1 1000)).charging
      ∧ BatteryDevice.new.percent x86
          = (BatteryDevice.new.handleUpdateCharge (F32.lit 1 1000)).percent x86 :=
  ⟨by decide, by decide,
   (C15_status_text_unambiguous x86 BatteryDevice.new
      (BatteryDevice.new.handleUpdateCharge (F32.lit 1 1000)) Device.new (by decide)).1,
   (C15_status_text_unambiguous x86 BatteryDevice.new
      (BatteryDevice.new.handleUpdateCharge (F32.lit 1 1000)) Device.new (by decide)).2.1,
   (C15_status_text_unambiguous x86 BatteryDevice.new
      (BatteryDevice.new.handleUpdateCharge (F32.lit 1 1000)) Device.new (by decide)).2.2.1⟩

set_option maxRecDepth 20000 in
/-- C15, counterexample: after `handleUpdateCharge(40000000.0f)` and after
`handleUpdateCharge(60000000.0f)` on a new battery device the charges are `40000000.0f` and
`60000000.0f`, with round(charge*100) equal to 4000000000 and 6000000000; neither fits an
`int`, and with the x86 conversion both states return the same text
`device off, battery life at -2147483648%`. -/
theorem C15_counterexample :
    (BatteryDevice.new.handleUpdateCharge (F32.lit 40000000 1)).charge = F32.lit 40000000 1
      ∧ (BatteryDevice.new.handleUpdateCharge (F32.lit 60000000 1)).charge = F32.lit 60000000 1
      ∧ (BatteryDevice.new.handleUpdateCharge (F32.lit 40000000 1)).getPowerStatus x86
          = "device off, battery life at -2147483648%"
      ∧ (BatteryDevice.new.handleUpdateCharge (F32.lit 40000000 1)).getPowerStatus x86
          = (BatteryDevice.new.handleUpdateCharge (F32.lit 60000000 1)).getPowerStatus x86
      ∧ specPercent (F32.lit 40000000 1) = 4000000000
      ∧ specPercent (F32.lit 60000000 1) = 6000000000
      ∧ specPercent (BatteryDevice.new.handleUpdateCharge (F32.lit 40000000 1)).charge
          ≠ specPercent (BatteryDevice.new.handleUpdateCharge (F32.lit 60000000 1)).charge := by
  have h1 : (BatteryDevice.new.handleUpdateCharge (F32.lit 40000000 1)).charge
      = F32.lit 40000000 1 := by decide
  have h2 : (BatteryDevice.new.handleUpdateCharge (F32.lit 60000000 1)).charge
      = F32.lit 60000000 1 := by decide
  refine ⟨h1, h2, by decide, by decide, specPercent_forty_sixty_million.1,
    specPercent_forty_sixty_million.2, ?_⟩
  rw [h1, h2, specPercent_forty_sixty_million.1, specPercent_forty_sixty_million.2]
  decide
